import Mathlib

set_option autoImplicit false

/-!
# fabric-starter-rest: the HTTP gateway of `app.js`

A shallow embedding of `src/app.js`: the Express middleware stack (body parser,
CORS, static assets, the JWT gate, the identity middleware), the route table of
`appRouter`, the `asyncMiddleware` wrapper and `startSocketServer`.

Conventions of the embedding.

* One request is processed against an environment `Env` that fixes what the
  collaborators answer: the LedgerClient (`fabric-starter-client`), `JSON.parse`,
  the static asset directory and the shared secret.
* Everything observable is appended to a trace of `Event`s: LedgerClient
  calls, responses written, `logger.error` calls, handlers that started.
* Library behaviour that `app.js` relies on (Express dispatch, the Node
  response object, `express-jwt`, `cors`, `serve-static`, `body-parser`) is
  written out next to the line of `app.js` that uses it.
-/

namespace FabricRest

/-! ## JavaScript values and errors -/

/-- JavaScript values that travel through the gateway (request fields, ledger
results, response bodies). -/
inductive JSVal where
  | undefined
  | null
  | bool (b : Bool)
  | num (n : Int)
  | str (s : String)
  | arr (items : List JSVal)
  | obj (fields : List (String × JSVal))
  deriving Repr, Inhabited

/-- An error value as the gateway sees it: `e.message`, and `e.status` when the
library that raised it sets one (`express-jwt`: 401, `body-parser`: 400). -/
structure JSError where
  message : String
  status : Option Nat := none
  deriving DecidableEq, Repr, Inhabited

/-- Models `new Error(msg)`. -/
def JSError.ofMessage (msg : String) : JSError := { message := msg }

/-- The `TypeError` raised by a property read or a call on a value that does not
support it. The message text depends on the Node version and is kept symbolic. -/
def JSError.typeError (what : String) : JSError := { message := "TypeError: " ++ what }

/-- The error Node raises when headers are set on a response already sent. -/
def JSError.headersSent : JSError :=
  { message := "Cannot set headers after they are sent to the client" }

/-- Property read `v.name` (for the field names the gateway reads): the field of
an object, `undefined` when the object has no such field or the value is a
number, a text, a boolean or an array, and a `TypeError` when the value is
`null` or `undefined`. -/
def JSVal.prop (v : JSVal) (name : String) : Except JSError JSVal :=
  match v with
  | .obj fields => .ok ((fields.lookup name).getD .undefined)
  | .undefined => .error (JSError.typeError ("cannot read property " ++ name ++ " of undefined"))
  | .null => .error (JSError.typeError ("cannot read property " ++ name ++ " of null"))
  | _ => .ok .undefined

/-- A query-string parameter as a value: its text, or `undefined` when absent. -/
def JSVal.ofParam : Option String → JSVal
  | some s => .str s
  | none => .undefined

/-! ## Tokens (`jsonwebtoken`, `express-jwt`) -/

/-- A signed token, symbolically: the `sub` claim of its payload and the key it
was signed with. -/
structure Token where
  sub : JSVal
  key : String
  deriving Repr, Inhabited

/-- Models `jsonwebtoken.sign({sub: sub}, secret)`. -/
def jsonwebtoken.sign (sub : JSVal) (secret : String) : Token :=
  { sub := sub, key := secret }

/-- Models `jsonwebtoken.verify(token, secret)`: the payload's `sub` when the
signature verifies against `secret`. -/
def jsonwebtoken.verify (token : Token) (secret : String) : Option JSVal :=
  if token.key = secret then some token.sub else none

/-- The `Authorization` header of a request. -/
inductive Credential where
  /-- The text `Bearer <token>` where the token text decodes as a signed token. -/
  | bearer (token : Token)
  /-- Any other header text: another scheme, or a token that does not decode. -/
  | other (raw : String)
  deriving Repr, Inhabited

/-! ## Requests and responses -/

/-- HTTP methods. -/
inductive Method where
  | GET | HEAD | POST | OPTIONS
  | other (name : String)
  deriving DecidableEq, Repr, Inhabited

/-- An incoming request. `path` is the pathname of the URL, with its segments
taken as already percent-decoded; `body` is `req.body`
as `body-parser` produced it (an empty object when there is none), and
`bodyMalformed` says that the body could not be parsed; `fcn`, `args` and
`targets` are the query-string parameters read by the chaincode query route. -/
structure Request where
  method : Method
  path : String
  authorization : Option Credential := none
  bodyMalformed : Bool := false
  body : JSVal := .obj []
  fcn : Option String := none
  args : Option String := none
  targets : Option String := none
  deriving Repr, Inhabited

/-- The body of a response. -/
inductive Body where
  /-- Written by `res.json(v)`. -/
  | json (v : JSVal)
  /-- Written by `res.json(token)` for a token produced by `jsonwebtoken.sign`. -/
  | jwt (token : Token)
  /-- Written by `res.send(text)`. -/
  | text (s : String)
  /-- A static asset. -/
  | file (content : String)
  /-- The page Express's final handler renders for an error or a missing route. -/
  | errorPage
  | empty
  deriving Repr, Inhabited

/-- A response as sent to the client. -/
structure Response where
  status : Nat
  body : Body
  deriving Repr, Inhabited

/-! ## LedgerClient operations and the event trace -/

/-- A JavaScript number as `parseInt` can return it: `NaN`, an infinity, the
negative zero, or a finite double, which is then an integer (other than the
negative zero) and is given by its value. -/
inductive JSNum where
  | nan
  | infinity (negative : Bool)
  | negZero
  | int (n : Int)
  deriving DecidableEq, Repr, Inhabited

/-- Operations of the LedgerClient (`fabricStarterClient`) that `app.js` calls. -/
inductive Call where
  | init
  | loginOrRegister (login password : JSVal)
  | getSecret
  | getUserName
  | getMspid
  | getNetworkConfig
  | queryInstalledChaincodes
  | queryChannels
  | queryInfo (channelId : String)
  | getOrganizations (channelId : String)
  | getPeersForOrgOnChannel (channelId : String)
  | getPeersForOrg (org : String)
  | queryBlock (channelId : String) (number : JSNum)
  | queryTransaction (channelId id : String)
  | queryInstantiatedChaincodes (channelId : String)
  | query (channelId chaincodeId : String) (fcn args targets : JSVal)
  | invoke (channelId chaincodeId : String) (fcn args targets : JSVal)
  deriving Repr, Inhabited

/-- Whether a call is the chaincode `query` operation. -/
def Call.isQuery : Call → Bool
  | .query _ _ _ _ _ => true
  | _ => false

/-- What one request makes happen, in order. -/
inductive Event where
  /-- A LedgerClient operation was invoked. -/
  | call (c : Call)
  /-- A route handler of `appRouter` started running. -/
  | handler (route : String)
  /-- A response was sent to the client. -/
  | respond (r : Response)
  /-- A write was attempted on a response already sent; Node raised
  `JSError.headersSent` and nothing went to the client. -/
  | writeRejected (r : Response)
  /-- A call `logger.error(tag, e)`. -/
  | logError (tag : String) (e : JSError)
  /-- A promise rejected with nobody awaiting it. -/
  | unhandledRejection (e : JSError)
  /-- Express's final handler destroyed the socket (error after the response
  was sent). -/
  | socketDestroyed
  deriving Repr, Inhabited

/-- Whether the event is a LedgerClient call. -/
def Event.isCall : Event → Bool
  | .call _ => true
  | _ => false

/-- Whether the event is a route handler starting. -/
def Event.isHandler : Event → Bool
  | .handler _ => true
  | _ => false

/-- Whether the event is the chaincode `query` operation. -/
def Event.isQueryCall : Event → Bool
  | .call c => c.isQuery
  | _ => false

/-- The response carried by a `respond` event. -/
def Event.response? : Event → Option Response
  | .respond r => some r
  | _ => none

/-- The error carried by a `logger.error` call with the given tag. -/
def Event.logged? (tag : String) : Event → Option JSError
  | .logError t e => if t = tag then some e else none
  | _ => none

/-- The responses sent to the client, in order. -/
def responses (trace : List Event) : List Response :=
  trace.filterMap Event.response?

/-- The LedgerClient calls made, in order. -/
def calls (trace : List Event) : List Event :=
  trace.filter Event.isCall

/-- The collaborators of one request.

* `secret`: what `fabricStarterClient.getSecret()` returns.
* `ledger`: the outcome of each LedgerClient operation (a value, or a failure).
* `jsonParse`: `JSON.parse`.
* `staticAsset`: what `express.static(webappDir)` answers for a path below the
  mount point (`none`: it calls `next()`).
-/
structure Env where
  secret : String
  ledger : Call → Except JSError JSVal
  jsonParse : String → Except JSError JSVal
  staticAsset : List String → Option Response

/-- The state of one request in flight: the response sent so far (Node's
`res.headersSent`), `req.user.sub` once the JWT gate set it, and the trace. -/
structure St where
  sent : Option Response := none
  principal : Option JSVal := none
  trace : List Event := []
  deriving Repr, Inhabited

/-- Appends an event to the trace. -/
def St.log (s : St) (e : Event) : St := { s with trace := s.trace ++ [e] }

/-- The response object: `res.status(code).json(v)` and `res.status(code).send(v)`.
The first write sends the response. A write on a response already sent sends
nothing and raises `JSError.headersSent` (setting `Content-Type` calls Node's
`setHeader`, which throws once the headers are out). The second component is
the error raised, if any. -/
def St.write (s : St) (r : Response) : St × Option JSError :=
  match s.sent with
  | none => ({ s.log (.respond r) with sent := some r }, none)
  | some _ => (s.log (.writeRejected r), some JSError.headersSent)

/-- Invokes a LedgerClient operation: records the call and returns what the
ledger answers. -/
def St.invoke (env : Env) (s : St) (c : Call) : St × Except JSError JSVal :=
  (s.log (.call c), env.ledger c)

/-- The call `fabricStarterClient.loginOrRegister(login, password)`: a
LedgerClient operation like any other; it returns nothing and fails when the
ledger rejects the login or the registration. -/
def loginOrRegister (env : Env) (login password : JSVal) (s : St) : St × Option JSError :=
  match s.invoke env (.loginOrRegister login password) with
  | (s1, .ok _) => (s1, none)
  | (s1, .error e) => (s1, some e)

/-- Modelled from the spec: the read `fabricStarterClient.user.getName()` of
`fabric-starter-client.js`, which is not part of the sources. The LedgerClient
interface of the spec (section 6) lists no accessor for a current user, and
its IdentityBridge contract (section 4.2) does not say which identity the
client holds after `loginOrRegister`; so the name read is whatever the
LedgerClient answers, like the result of any other operation (a failure
stands for the `TypeError` of reading `getName` on an undefined `user`). -/
def getUserName (env : Env) (s : St) : St × Except JSError JSVal :=
  s.invoke env .getUserName

/-! ## Paths and route patterns (Express routing) -/

/-- Splits a text at each slash. -/
def splitSlash : List Char → List (List Char)
  | [] => [[]]
  | c :: cs =>
    match splitSlash cs with
    | [] => [[]]
    | seg :: rest => if c = '/' then [] :: seg :: rest else (c :: seg) :: rest

/-- The segments of a pathname: the texts that follow each slash.
`/` gives `[""]`, `/users` gives `["users"]`, `/a/b/` gives `["a", "b", ""]`. -/
def segments (path : String) : List String :=
  (splitSlash path.data).tail.map String.mk

/-- Express routes are not strict: one trailing slash is ignored. -/
def dropTrailingSlash (segs : List String) : List String :=
  match segs.getLast? with
  | some "" => segs.dropLast
  | _ => segs

/-- Lower-cases a text (Express routes are not case sensitive). -/
def lower (s : String) : String := ⟨s.data.map Char.toLower⟩

/-- A segment of a route template: a literal, or a named parameter `:name`. -/
inductive Seg where
  | lit (s : String)
  | param (name : String)
  deriving DecidableEq, Repr

/-- The parameters a route template extracted from a path (`req.params`). -/
abbrev Params := List (String × String)

/-- Reads `req.params[name]`. -/
def param (ps : Params) (name : String) : String := (ps.lookup name).getD ""

/-- Matches path segments against a route template. A literal matches its own
text in any letter case; a parameter matches any non-empty segment. -/
def matchPattern : List Seg → List String → Option Params
  | [], [] => some []
  | .lit s :: ps, x :: xs => if lower x = s then matchPattern ps xs else none
  | .param n :: ps, x :: xs =>
    if x = "" then none else (matchPattern ps xs).map (fun m => (n, x) :: m)
  | _, _ => none

/-- Whether a route registered for `routeMethod` serves a request of method
`m`: `app.get` routes also serve `HEAD`. -/
def methodMatches (routeMethod m : Method) : Bool :=
  m = routeMethod || (routeMethod = .GET && m = .HEAD)

/-! ## `parseInt` -/

/-- The characters `parseInt` skips at the start (ECMAScript `StrWhiteSpaceChar`). -/
def isStrWhiteSpace (c : Char) : Bool :=
  c = ' ' || c = '\t' || c = '\n' || c = '\r' || c.toNat = 0x0B || c.toNat = 0x0C ||
  c.toNat = 0xA0 || c.toNat = 0xFEFF || c.toNat = 0x1680 ||
  (0x2000 ≤ c.toNat && c.toNat ≤ 0x200A) ||
  c.toNat = 0x2028 || c.toNat = 0x2029 || c.toNat = 0x202F || c.toNat = 0x205F ||
  c.toNat = 0x3000

/-- The value of a character as a digit of the given radix, if it is one. -/
def digitValue (radix : Nat) (c : Char) : Option Nat :=
  let v : Option Nat :=
    if '0' ≤ c ∧ c ≤ '9' then some (c.toNat - '0'.toNat)
    else if 'a' ≤ c ∧ c ≤ 'z' then some (c.toNat - 'a'.toNat + 10)
    else if 'A' ≤ c ∧ c ≤ 'Z' then some (c.toNat - 'A'.toNat + 10)
    else none
  v.filter (fun d => d < radix)

/-- The digits at the start of a text, up to the first character that is not a
digit of the radix. -/
def leadingDigits (radix : Nat) : List Char → List Nat
  | [] => []
  | c :: cs =>
    match digitValue radix c with
    | some d => d :: leadingDigits radix cs
    | none => []

/-- The number a digit sequence denotes. -/
def digitsValue (radix : Nat) (ds : List Nat) : Nat :=
  ds.foldl (fun acc d => acc * radix + d) 0

/-- The least shift `e`, searched upward from `e`, for which `n / 2 ^ e` fits the
53 bits of a double's significand. -/
def mantissaShift : Nat → Nat → Nat → Nat
  | 0, _, e => e
  | fuel + 1, n, e => if n / 2 ^ e < 2 ^ 53 then e else mantissaShift fuel n (e + 1)

/-- The double nearest to a natural number (ties go to the even significand), as
the natural number it is; `none` when the number rounds beyond the largest
double, that is, to `Infinity`. -/
def roundToDouble (n : Nat) : Option Nat :=
  let e := mantissaShift n n 0
  let q := n / 2 ^ e
  let r := n % 2 ^ e
  let q1 := if 2 ^ e < 2 * r ∨ (2 * r = 2 ^ e ∧ q % 2 = 1) then q + 1 else q
  let bits := if q1 = 2 ^ 53 then e + 54 else e + 53
  if bits ≤ 1024 then some (q1 * 2 ^ e) else none

/-- Models `parseInt(text)` with no radix argument: skips leading white space,
reads an optional sign, an optional `0x` or `0X` (radix 16), then the longest
run of digits; `NaN` when there is no digit. The number read is returned as a
double: rounded to the nearest double above `2 ^ 53`, `Infinity` beyond the
range of doubles, and the negative zero for a zero after a minus sign.
(ECMAScript lets an implementation replace the decimal digits after the 20th
by zeros before rounding; the model rounds the exact number, as V8 does.) -/
def parseInt (text : String) : JSNum :=
  let s1 := text.data.dropWhile isStrWhiteSpace
  let signed : Bool × List Char :=
    match s1 with
    | c :: r => if c = '-' then (true, r) else if c = '+' then (false, r) else (false, s1)
    | [] => (false, s1)
  let based : Nat × List Char :=
    match signed.2 with
    | c :: d :: r => if c = '0' ∧ (d = 'x' ∨ d = 'X') then (16, r) else (10, signed.2)
    | r => (10, r)
  let ds := leadingDigits based.1 based.2
  if ds = [] then .nan
  else
    match roundToDouble (digitsValue based.1 ds) with
    | none => .infinity signed.1
    | some m =>
      if signed.1 then (if m = 0 then .negZero else .int (-(m : Int)))
      else .int m

/-! ## Handlers and `asyncMiddleware` -/

/-- How a call of a handler function ends: its promise resolves, its promise
rejects, or the call itself throws. -/
inductive Completion where
  | resolved
  | rejected (e : JSError)
  | threw (e : JSError)
  deriving Repr, Inhabited

/-- How a layer of the Express stack hands over: it called `next()`, it passed
an error (`next(err)`, or it threw synchronously and Express caught it), or it
did neither. -/
inductive Next where
  | next
  | nextErr (e : JSError)
  | stop
  deriving Repr, Inhabited

/-- The body of a handler: the state it leaves, and the error it raised if it
did not run to its end. -/
abbrev Script := Env → Request → Params → St → St × Option JSError

/-- A handler function as Express calls it. -/
abbrev Handler := Env → Request → Params → St → St × Completion

/-- A layer function of the Express stack. -/
abbrev LayerFn := Env → Request → Params → St → St × Next

/-- An `async (req, res, next) => { ... }` function: an error raised in the body
rejects the returned promise; the call itself never throws. -/
def asyncFn (body : Script) : Handler := fun env req ps s =>
  match body env req ps s with
  | (s1, none) => (s1, .resolved)
  | (s1, some e) => (s1, .rejected e)

/-- A plain `(req, res) => { ... }` function: an error raised in the body is
thrown by the call. -/
def syncFn (body : Script) : Handler := fun env req ps s =>
  match body env req ps s with
  | (s1, none) => (s1, .resolved)
  | (s1, some e) => (s1, .threw e)

/-- The wrapper `asyncMiddleware` (lines 32-41):
`Promise.resolve(fn(req, res, next)).catch(e => { logger.error('asyncMiddleware', e);
res.status(500).json(e.message); next(); })`.
A rejection is logged and answered with 500 and `e.message`, then `next()` is
called; if that write is itself refused, the error escapes the `catch` callback
as an unhandled rejection and `next()` is not reached. A resolved promise is
left alone. An error thrown by the call `fn(...)` itself is raised before
`Promise.resolve` and is Express's to catch. -/
def asyncMiddleware (fn : Handler) : LayerFn := fun env req ps s =>
  match fn env req ps s with
  | (s1, .resolved) => (s1, .stop)
  | (s1, .threw e) => (s1, .nextErr e)
  | (s1, .rejected e) =>
    match (s1.log (.logError "asyncMiddleware" e)).write ⟨500, .json (.str e.message)⟩ with
    | (s2, none) => (s2, .next)
    | (s2, some e2) => (s2.log (.unhandledRejection e2), .stop)

/-- A route handler passed to Express without the wrapper: Express catches a
synchronous throw and calls `next(err)`; a rejected promise is ignored. -/
def unwrapped (fn : Handler) : LayerFn := fun env req ps s =>
  match fn env req ps s with
  | (s1, .resolved) => (s1, .stop)
  | (s1, .threw e) => (s1, .nextErr e)
  | (s1, .rejected e) => (s1.log (.unhandledRejection e), .stop)

/-- The statement `res.json(await fabricStarterClient.op(...))` (and its variant
without `await`): invokes the operation and writes its result with status 200;
a failure of the operation is raised. -/
def relay (env : Env) (c : Call) (s : St) : St × Option JSError :=
  match s.invoke env c with
  | (s1, .ok v) => s1.write ⟨200, .json v⟩
  | (s1, .error e) => (s1, some e)

/-- The statement `res.status(501).json(msg)`. -/
def notImplemented (msg : String) (s : St) : St × Option JSError :=
  s.write ⟨501, .json (.str msg)⟩

/-- Element read `v[0]`. -/
def JSVal.first : JSVal → Except JSError JSVal
  | .arr items => .ok (items.head?.getD .undefined)
  | .str s =>
    match s.data with
    | c :: _ => .ok (.str ⟨[c]⟩)
    | [] => .ok .undefined
  | .obj fields => .ok ((fields.lookup "0").getD .undefined)
  | .undefined => .error (JSError.typeError "cannot read property 0 of undefined")
  | .null => .error (JSError.typeError "cannot read property 0 of null")
  | _ => .ok .undefined

/-- Method call `v.startsWith(p)`: defined on strings, a `TypeError` on any
other value. -/
def JSVal.startsWith (v : JSVal) (p : String) : Except JSError Bool :=
  match v with
  | .str s => .ok (p.data.isPrefixOf s.data)
  | _ => .error (JSError.typeError "startsWith is not a function")

/-- Handler of `GET /` (lines 63-65). -/
def getRoot : Script := fun _ _ _ s =>
  (s.log (.handler "GET /")).write ⟨200, .text "Welcome to fabric-starter REST server"⟩

/-- Handler of `GET /mspid` (lines 67-69). -/
def getMspid : Script := fun env _ _ s =>
  relay env .getMspid (s.log (.handler "GET /mspid"))

/-- Handler of `GET /config` (lines 72-74). -/
def getConfig : Script := fun env _ _ s =>
  relay env .getNetworkConfig (s.log (.handler "GET /config"))

/-- Handler of `GET /chaincodes` (lines 76-78). -/
def getChaincodes : Script := fun env _ _ s =>
  relay env .queryInstalledChaincodes (s.log (.handler "GET /chaincodes"))

/-- Handler of `POST /chaincodes` (lines 80-82). -/
def postChaincodes : Script := fun _ _ _ s =>
  notImplemented "installing chaincode on peer not implemented" (s.log (.handler "POST /chaincodes"))

/-- Handler of `POST /users` (lines 84-89): reads `username` and `password` from
the body, logs in or registers with them, then signs a token whose subject is
`fabricStarterClient.user.getName()` (evaluated before `getSecret()`) and
writes it. -/
def postUsers : Script := fun env req _ s =>
  let s0 := s.log (.handler "POST /users")
  match req.body.prop "username" with
  | .error e => (s0, some e)
  | .ok username =>
    match req.body.prop "password" with
    | .error e => (s0, some e)
    | .ok password =>
      match loginOrRegister env username password s0 with
      | (s1, some e) => (s1, some e)
      | (s1, none) =>
        match getUserName env s1 with
        | (s2, .error e) => (s2, some e)
        | (s2, .ok name) =>
          (s2.log (.call .getSecret)).write ⟨200, .jwt (jsonwebtoken.sign name env.secret)⟩

/-- Handler of `GET /channels` (lines 91-93). -/
def getChannels : Script := fun env _ _ s =>
  relay env .queryChannels (s.log (.handler "GET /channels"))

/-- Handler of `POST /channels` (lines 95-97). -/
def postChannels : Script := fun _ _ _ s =>
  notImplemented "adding channel not implemented" (s.log (.handler "POST /channels"))

/-- Handler of `GET /channels/:channelId` (lines 99-101). -/
def getChannel : Script := fun env _ ps s =>
  relay env (.queryInfo (param ps "channelId")) (s.log (.handler "GET /channels/:channelId"))

/-- Handler of `GET /channels/:channelId/orgs` (lines 103-105). -/
def getChannelOrgs : Script := fun env _ ps s =>
  relay env (.getOrganizations (param ps "channelId"))
    (s.log (.handler "GET /channels/:channelId/orgs"))

/-- Handler of `GET /channels/:channelId/peers` (lines 107-109). -/
def getChannelPeers : Script := fun env _ ps s =>
  relay env (.getPeersForOrgOnChannel (param ps "channelId"))
    (s.log (.handler "GET /channels/:channelId/peers"))

/-- Handler of `GET /orgs/:org/peers` (lines 111-113). -/
def getOrgPeers : Script := fun env _ ps s =>
  relay env (.getPeersForOrg (param ps "org")) (s.log (.handler "GET /orgs/:org/peers"))

/-- Handler of `POST /channels/:channelId/orgs` (lines 115-117). -/
def postChannelOrgs : Script := fun _ _ _ s =>
  notImplemented "adding organization to channel not implemented"
    (s.log (.handler "POST /channels/:channelId/orgs"))

/-- Handler of `GET /channels/:channelId/blocks/:number` (lines 119-121): the
block number is `parseInt(req.params.number)`. -/
def getBlock : Script := fun env _ ps s =>
  relay env (.queryBlock (param ps "channelId") (parseInt (param ps "number")))
    (s.log (.handler "GET /channels/:channelId/blocks/:number"))

/-- Handler of `GET /channels/:channelId/transactions/:id` (lines 123-125). -/
def getTransaction : Script := fun env _ ps s =>
  relay env (.queryTransaction (param ps "channelId") (param ps "id"))
    (s.log (.handler "GET /channels/:channelId/transactions/:id"))

/-- Handler of `GET /channels/:channelId/chaincodes` (lines 127-129). -/
def getChannelChaincodes : Script := fun env _ ps s =>
  relay env (.queryInstantiatedChaincodes (param ps "channelId"))
    (s.log (.handler "GET /channels/:channelId/chaincodes"))

/-- Handler of `POST /channels/:channelId/chaincodes` (lines 131-133). -/
def postChannelChaincodes : Script := fun _ _ _ s =>
  notImplemented "instantiating chaincode on channel not implemented"
    (s.log (.handler "POST /channels/:channelId/chaincodes"))

/-- Handler of `GET /channels/:channelId/chaincodes/:chaincodeId` (lines 135-144).
The arguments of `query` are evaluated before the call, so a failing
`JSON.parse(req.query.args)` raises before `query` is invoked (an absent
`args` is parsed as the text `undefined`). When `ret[0].startsWith('Error')`
holds, `new Error(ret[0])` is raised; otherwise `ret` is written. -/
def getChaincodeQuery : Script := fun env req ps s =>
  let s0 := s.log (.handler "GET /channels/:channelId/chaincodes/:chaincodeId")
  match env.jsonParse (req.args.getD "undefined") with
  | .error e => (s0, some e)
  | .ok args =>
    match s0.invoke env (.query (param ps "channelId") (param ps "chaincodeId")
        (JSVal.ofParam req.fcn) args (JSVal.ofParam req.targets)) with
    | (s1, .error e) => (s1, some e)
    | (s1, .ok ret) =>
      match ret.first with
      | .error e => (s1, some e)
      | .ok r0 =>
        match r0.startsWith "Error" with
        | .error e => (s1, some e)
        | .ok true =>
          match r0 with
          | .str text => (s1, some (JSError.ofMessage text))
          | _ => (s1, some (JSError.ofMessage ""))
        | .ok false => s1.write ⟨200, .json ret⟩

/-- Handler of `POST /channels/:channelId/chaincodes/:chaincodeId` (lines 146-149):
reads `fcn`, `args` and `targets` from the body, then relays `invoke`. -/
def postChaincodeInvoke : Script := fun env req ps s =>
  let s0 := s.log (.handler "POST /channels/:channelId/chaincodes/:chaincodeId")
  match req.body.prop "fcn" with
  | .error e => (s0, some e)
  | .ok fcn =>
    match req.body.prop "args" with
    | .error e => (s0, some e)
    | .ok args =>
      match req.body.prop "targets" with
      | .error e => (s0, some e)
      | .ok targets =>
        relay env (.invoke (param ps "channelId") (param ps "chaincodeId") fcn args targets) s0

/-! ## The middleware stack (lines 14-59) -/

/-- The error `body-parser` passes to `next` for a body it cannot parse. -/
def badRequest : JSError := { message := "request body could not be parsed", status := some 400 }

/-- The error `express-jwt` passes to `next` for a missing or invalid token. -/
def unauthorized : JSError :=
  { message := "No authorization token was found or it is invalid", status := some 401 }

/-- The layers `bodyParser.json()` and `bodyParser.urlencoded(...)` (lines 14-15):
a body that cannot be parsed is passed on as a 400 error. -/
def bodyParser : LayerFn := fun _ req _ s =>
  if req.bodyMalformed then (s, .nextErr badRequest) else (s, .next)

/-- The layer `cors()` (lines 25-26), with the defaults of the `cors` package:
an `OPTIONS` request is a preflight and is answered with 204 and an empty
body, without calling `next()`; any other request gets its headers and goes
on. -/
def cors : LayerFn := fun _ req _ s =>
  if req.method = .OPTIONS then
    match s.write ⟨204, .empty⟩ with
    | (s1, none) => (s1, .stop)
    | (s1, some e) => (s1, .nextErr e)
  else (s, .next)

/-- The layer `express.static(webappDir)` mounted at `/webapp` (line 29): a `GET`
or `HEAD` for an asset the directory serves is answered with it; anything
else falls through to `next()`. -/
def serveStatic : LayerFn := fun env req _ s =>
  if req.method = .GET ∨ req.method = .HEAD then
    match env.staticAsset (segments req.path).tail with
    | some r =>
      match s.write r with
      | (s1, none) => (s1, .stop)
      | (s1, some e) => (s1, .nextErr e)
    | none => (s, .next)
  else (s, .next)

/-- The paths the JWT gate lets through unchecked (line 43). -/
def publicPaths : List String := ["/", "/users", "/mspid"]

/-- The subject of the bearer token a request carries, when it carries one that
verifies against the shared secret. -/
def bearerSub (env : Env) (req : Request) : Option JSVal :=
  match req.authorization with
  | some (.bearer token) => jsonwebtoken.verify token env.secret
  | _ => none

/-- The layer `jwt({secret: fabricStarterClient.getSecret()}).unless({path: [...]})`
(line 43). A request whose pathname is one of `publicPaths` passes with no
`req.user`. Any other request needs an `Authorization: Bearer` token that
verifies against the secret: then `req.user` is its payload; otherwise an
`UnauthorizedError` (status 401) is passed to `next`. (The branch of
`express-jwt` for preflight requests is never taken: the `cors` layer answers
every `OPTIONS` request before.) -/
def jwtGate : LayerFn := fun env req _ s =>
  if req.path ∈ publicPaths then (s, .next)
  else
    match bearerSub env req with
    | some sub => ({ s with principal := some sub }, .next)
    | none => (s, .nextErr unauthorized)

/-- The identity middleware (lines 45-59). It awaits `init()`; a rejection there
is raised out of the `async` function, which Express does not observe: the
request is left unanswered. With `req.user` set it calls
`loginOrRegister(req.user.sub)`; a failure is logged and answered with 500 and
`e.message`. In every case that reaches line 58, `next()` is called. -/
def identity : LayerFn := fun env _ _ s =>
  match s.invoke env .init with
  | (s1, .error e) => (s1.log (.unhandledRejection e), .stop)
  | (s1, .ok _) =>
    match s1.principal with
    | none => (s1, .next)
    | some login =>
      match loginOrRegister env login .undefined s1 with
      | (s2, none) => (s2, .next)
      | (s2, some e) =>
        match (s2.log (.logError "loginOrRegister" e)).write ⟨500, .json (.str e.message)⟩ with
        | (s3, none) => (s3, .next)
        | (s3, some e2) => (s3.log (.unhandledRejection e2), .stop)

/-! ## The application (lines 14-154) -/

/-- One layer of the Express stack: when it applies to a request (and with which
`req.params`), and what it does. -/
structure Layer where
  name : String
  applies : Request → Option Params
  run : LayerFn

/-- A layer added with `app.use(fn)`: applies to every request. -/
def useLayer (name : String) (fn : LayerFn) : Layer :=
  { name := name, applies := fun _ => some [], run := fn }

/-- A layer added with `app.use(mount, fn)`: applies when the path starts with
the mount segment (in any letter case). -/
def mountLayer (name mount : String) (fn : LayerFn) : Layer :=
  { name := name
    applies := fun req =>
      match segments req.path with
      | x :: _ => if lower x = mount then some [] else none
      | [] => none
    run := fn }

/-- A layer added with `app.options('*', fn)`. -/
def optionsLayer (name : String) (fn : LayerFn) : Layer :=
  { name := name
    applies := fun req => if req.method = .OPTIONS then some [] else none
    run := fn }

/-- One registration `app.get(template, fn)` or `app.post(template, fn)` of
`appRouter`: `wrapped` says whether `fn` is `asyncMiddleware(async ...)` or a
plain function. -/
structure RouteEntry where
  method : Method
  name : String
  template : List Seg
  wrapped : Bool
  script : Script

/-- The function registered for a route. -/
def RouteEntry.fn (r : RouteEntry) : LayerFn :=
  if r.wrapped then asyncMiddleware (asyncFn r.script) else unwrapped (syncFn r.script)

/-- The layer of a route: it applies when the method and the path match. -/
def RouteEntry.layer (r : RouteEntry) : Layer :=
  { name := r.name
    applies := fun req =>
      if methodMatches r.method req.method then
        matchPattern r.template (dropTrailingSlash (segments req.path))
      else none
    run := r.fn }

/-- The routes registered by `appRouter` (lines 61-152), in order. -/
def routeTable : List RouteEntry :=
  [
    { method := .GET, name := "GET /",
      template := [],
      wrapped := false, script := getRoot },
    { method := .GET, name := "GET /mspid",
      template := [.lit "mspid"],
      wrapped := false, script := getMspid },
    { method := .GET, name := "GET /config",
      template := [.lit "config"],
      wrapped := false, script := getConfig },
    { method := .GET, name := "GET /chaincodes",
      template := [.lit "chaincodes"],
      wrapped := true, script := getChaincodes },
    { method := .POST, name := "POST /chaincodes",
      template := [.lit "chaincodes"],
      wrapped := true, script := postChaincodes },
    { method := .POST, name := "POST /users",
      template := [.lit "users"],
      wrapped := true, script := postUsers },
    { method := .GET, name := "GET /channels",
      template := [.lit "channels"],
      wrapped := true, script := getChannels },
    { method := .POST, name := "POST /channels",
      template := [.lit "channels"],
      wrapped := true, script := postChannels },
    { method := .GET, name := "GET /channels/:channelId",
      template := [.lit "channels", .param "channelId"],
      wrapped := true, script := getChannel },
    { method := .GET, name := "GET /channels/:channelId/orgs",
      template := [.lit "channels", .param "channelId", .lit "orgs"],
      wrapped := true, script := getChannelOrgs },
    { method := .GET, name := "GET /channels/:channelId/peers",
      template := [.lit "channels", .param "channelId", .lit "peers"],
      wrapped := true, script := getChannelPeers },
    { method := .GET, name := "GET /orgs/:org/peers",
      template := [.lit "orgs", .param "org", .lit "peers"],
      wrapped := true, script := getOrgPeers },
    { method := .POST, name := "POST /channels/:channelId/orgs",
      template := [.lit "channels", .param "channelId", .lit "orgs"],
      wrapped := true, script := postChannelOrgs },
    { method := .GET, name := "GET /channels/:channelId/blocks/:number",
      template := [.lit "channels", .param "channelId", .lit "blocks", .param "number"],
      wrapped := true, script := getBlock },
    { method := .GET, name := "GET /channels/:channelId/transactions/:id",
      template := [.lit "channels", .param "channelId", .lit "transactions", .param "id"],
      wrapped := true, script := getTransaction },
    { method := .GET, name := "GET /channels/:channelId/chaincodes",
      template := [.lit "channels", .param "channelId", .lit "chaincodes"],
      wrapped := true, script := getChannelChaincodes },
    { method := .POST, name := "POST /channels/:channelId/chaincodes",
      template := [.lit "channels", .param "channelId", .lit "chaincodes"],
      wrapped := true, script := postChannelChaincodes },
    { method := .GET, name := "GET /channels/:channelId/chaincodes/:chaincodeId",
      template := [.lit "channels", .param "channelId", .lit "chaincodes", .param "chaincodeId"],
      wrapped := true, script := getChaincodeQuery },
    { method := .POST, name := "POST /channels/:channelId/chaincodes/:chaincodeId",
      template := [.lit "channels", .param "channelId", .lit "chaincodes", .param "chaincodeId"],
      wrapped := true, script := postChaincodeInvoke } ]

/-- The route layers of `appRouter`. -/
def appRouter : List Layer := routeTable.map RouteEntry.layer

/-- The layers before the routes (lines 14-59), in order. -/
def middleware : List Layer :=
  [ useLayer "bodyParser" bodyParser,
    useLayer "cors" cors,
    optionsLayer "options cors" cors,
    mountLayer "static" "webapp" serveStatic,
    useLayer "jwt" jwtGate,
    useLayer "identity" identity ]

/-- The whole Express stack of `app`. -/
def app : List Layer := middleware ++ appRouter

/-- Express dispatch: the layers that apply to the request run in order, each
one only if the one before called `next()`. A layer that passes an error ends
the walk (the stack has no error-handling layer), as does one that does not
call `next`. -/
def runStack (env : Env) (req : Request) : List Layer → St → St × Next
  | [], s => (s, .next)
  | l :: ls, s =>
    match l.applies req with
    | none => runStack env req ls s
    | some ps =>
      match l.run env req ps s with
      | (s1, .next) => runStack env req ls s1
      | (s1, .nextErr e) => (s1, .nextErr e)
      | (s1, .stop) => (s1, .stop)

/-- Express's final handler, reached when the stack is exhausted or an error was
passed: it answers 404, or the error's status (500 when it has none); when a
response was already sent it writes nothing (and destroys the socket on an
error). -/
def finalhandler (s : St) : Next → St
  | .stop => s
  | .next =>
    match s.sent with
    | some _ => s
    | none => (s.write ⟨404, .errorPage⟩).1
  | .nextErr e =>
    match s.sent with
    | some _ => s.log .socketDestroyed
    | none => (s.write ⟨e.status.getD 500, .errorPage⟩).1

/-- The state in which a request enters the stack: nothing sent, nothing
traced. -/
def St.initial : St := {}

/-- Processing of one request by the gateway: the final state. -/
def handle (env : Env) (req : Request) : St :=
  match runStack env req app St.initial with
  | (s, n) => finalhandler s n

/-- What the static layer answers to a request, when it answers: the request is
under the mount point `/webapp`, its method is `GET` or `HEAD`, and the asset
directory serves its path. -/
def staticAnswer (env : Env) (req : Request) : Option Response :=
  match (mountLayer "static" "webapp" serveStatic).applies req with
  | none => none
  | some _ =>
    if req.method = .GET ∨ req.method = .HEAD then env.staticAsset (segments req.path).tail
    else none

/-- A request that a layer mounted before the JWT gate answers: a body that
cannot be parsed (400), a CORS preflight (204), or a static asset. -/
def answeredBeforeGate (env : Env) (req : Request) : Prop :=
  req.bodyMalformed = true ∨ req.method = .OPTIONS ∨ (staticAnswer env req).isSome

/-- The state in which the router is reached by a request whose token verified
for `sub` and whose identity the ledger accepted. -/
def St.identified (sub : JSVal) : St :=
  { sent := none, principal := some sub,
    trace := [.call .init, .call (.loginOrRegister sub .undefined)] }

/-- The state in which the router is reached by a request whose token verified
for `sub` and whose identity the ledger rejected with `e`: the 500 response
is already sent. -/
def St.rejected (sub : JSVal) (e : JSError) : St :=
  { sent := some ⟨500, .json (.str e.message)⟩, principal := some sub,
    trace := [.call .init, .call (.loginOrRegister sub .undefined),
      .logError "loginOrRegister" e, .respond ⟨500, .json (.str e.message)⟩] }

/-- The state in which the router is reached by a request for a public path. -/
def St.anonymous : St :=
  { sent := none, principal := none, trace := [.call .init] }

/-! ## The block event bridge (lines 160-178) -/

/-- A block event of the ledger. -/
structure Block where
  number : Int
  channel_id : String
  payload : String := ""
  deriving DecidableEq, Repr, Inhabited

/-- A broadcast `io.emit(event, block)` to all connected realtime clients. -/
structure Emit where
  event : String
  block : Block
  deriving DecidableEq, Repr, Inhabited

/-- The block callback passed to `registerBlockEvent` (lines 166-169):
`io.emit('chainblock', block)`. -/
def onBlock (block : Block) (emitted : List Emit) : List Emit :=
  emitted ++ [{ event := "chainblock", block := block }]

/-- The broadcasts made while the listeners receive the given block events, in
arrival order: each delivery runs the block callback once. -/
def deliver (events : List Block) (emitted : List Emit) : List Emit :=
  events.foldl (fun acc b => onBlock b acc) emitted

/-- The broadcast blocks of one channel, in order. -/
def forwarded (channelId : String) (emitted : List Emit) : List Block :=
  (emitted.map Emit.block).filter (fun b => b.channel_id = channelId)

/-- What `startSocketServer` makes happen. -/
inductive BridgeEvent where
  /-- A call `registerBlockEvent(channelId, onBlock, onError)`, with whether each
  callback was passed. -/
  | register (channelId : JSVal) (blockCallback errorCallback : Bool)
  /-- The line `logger.debug('registered for block event on ...')`. -/
  | registered (channelId : JSVal)
  /-- A rejection of the promise of one `forEach` callback, which nobody awaits. -/
  | unhandledRejection (channelId : JSVal) (e : JSError)
  /-- A rejection of the promise of `startSocketServer` itself: an error raised
  before the `forEach` loop. -/
  | startupFailed (e : JSError)
  deriving Repr, Inhabited

/-- The channel id of a `registerBlockEvent` call with both callbacks. -/
def BridgeEvent.registration? : BridgeEvent → Option JSVal
  | .register c true true => some c
  | _ => none

/-- Whether the event is a `registerBlockEvent` call. -/
def BridgeEvent.isRegister : BridgeEvent → Bool
  | .register _ _ _ => true
  | _ => false

/-- The start of one `forEach` callback (lines 165-171): the `async` arrow
function runs up to its `await`, that is, it calls `registerBlockEvent` with
the channel id, the block callback and the error callback. -/
def subscribe (channelId : JSVal) (log : List BridgeEvent) : List BridgeEvent :=
  log ++ [.register channelId true true]

/-- The rest of one `forEach` callback (line 172), run once the awaited
registration settled: it logs on success; a failure rejects the callback's own
promise, which nobody awaits. -/
def settle (register : JSVal → Except JSError Unit) (channelId : JSVal)
    (log : List BridgeEvent) : List BridgeEvent :=
  match register channelId with
  | .ok _ => log ++ [.registered channelId]
  | .error e => log ++ [.unhandledRejection channelId e]

/-- The expression `channels.map(c => {return c.channel_id;})` (line 165): the
`channel_id` of each element in turn; the property read raises a `TypeError`
on an element that is `null` or `undefined`, and the whole `map` with it. -/
def channelIds : List JSVal → Except JSError (List JSVal)
  | [] => .ok []
  | c :: cs =>
    match c.prop "channel_id" with
    | .error e => .error e
    | .ok channelId =>
      match channelIds cs with
      | .error e => .error e
      | .ok ids => .ok (channelId :: ids)

/-- The function `startSocketServer` (lines 160-174) for the channel list that
`queryChannels` returned: `channels.map(c => c.channel_id).forEach(async ...)`.
An error raised by the `map` rejects the promise of `startSocketServer` before
any callback starts. Otherwise `forEach` starts every callback in turn,
whatever became of the ones before; the awaited registrations settle after the
loop. `register` is the outcome of `registerBlockEvent` for each channel id. -/
def startSocketServer (register : JSVal → Except JSError Unit) (channels : List JSVal) :
    List BridgeEvent :=
  match channelIds channels with
  | .error e => [.startupFailed e]
  | .ok ids =>
    let started := ids.foldl (fun log channelId => subscribe channelId log) []
    ids.foldl (fun log channelId => settle register channelId log) started

/-! ## Observations on a trace -/

/-- The errors logged under the tag `asyncMiddleware`, in order: one entry for
each time the wrapper caught a failure. -/
def caught (trace : List Event) : List JSError :=
  trace.filterMap (Event.logged? "asyncMiddleware")

/-- The block number of a `queryBlock` call. -/
def Event.blockNumber? : Event → Option JSNum
  | .call (.queryBlock _ n) => some n
  | _ => none

/-- The block numbers passed to `queryBlock`, in order. -/
def blockNumbers (trace : List Event) : List JSNum :=
  trace.filterMap Event.blockNumber?

/-- The identity name and password of a `loginOrRegister` call. -/
def Event.login? : Event → Option (JSVal × JSVal)
  | .call (.loginOrRegister login password) => some (login, password)
  | _ => none

/-- The arguments of the `loginOrRegister` calls, in order. -/
def logins (trace : List Event) : List (JSVal × JSVal) :=
  trace.filterMap Event.login?

/-- The LedgerClient operation of a `call` event. -/
def Event.call? : Event → Option Call
  | .call c => some c
  | _ => none

/-- The LedgerClient operations invoked, in order. -/
def callsOf (trace : List Event) : List Call :=
  trace.filterMap Event.call?

/-- The number denoted by a text of decimal digits. -/
def decimalValue (text : String) : Nat :=
  digitsValue 10 (text.data.map (fun c => c.toNat - 48))

/-! ## The route table of the spec -/

/-- What a route answers when its operation succeeds: the LedgerClient
operations invoked on the way, and the response. -/
structure Answer where
  calls : List Call
  response : Response

/-- The answer of a route that relays one LedgerClient operation: the result of
the operation as JSON with status 200; none when the operation fails. -/
def relayed (env : Env) (c : Call) : Option Answer :=
  match env.ledger c with
  | .ok v => some { calls := [c], response := ⟨200, .json v⟩ }
  | .error _ => none

/-- The answer of a route that is not implemented: a fixed message with status
501 and no LedgerClient operation. -/
def refused (msg : String) : Option Answer :=
  some { calls := [], response := ⟨501, .json (.str msg)⟩ }

/-- The answer of `POST /users`: after `loginOrRegister` with the credentials of
the body, a token signed with the shared secret for the name the LedgerClient
reports. -/
def issued (env : Env) (req : Request) : Option Answer :=
  match req.body.prop "username", req.body.prop "password" with
  | .ok username, .ok password =>
    match env.ledger (.loginOrRegister username password), env.ledger .getUserName with
    | .ok _, .ok name =>
      some { calls := [.loginOrRegister username password, .getUserName, .getSecret]
             response := ⟨200, .jwt (jsonwebtoken.sign name env.secret)⟩ }
    | _, _ => none
  | _, _ => none

/-- The answer of the chaincode query route: the result array of `query` on the
parsed `args`, unless its first element is a text that begins with `Error`
(or is no text at all). -/
def queried (env : Env) (req : Request) (ps : Params) : Option Answer :=
  match env.jsonParse (req.args.getD "undefined") with
  | .error _ => none
  | .ok args =>
    let c := Call.query (param ps "channelId") (param ps "chaincodeId")
      (JSVal.ofParam req.fcn) args (JSVal.ofParam req.targets)
    match env.ledger c with
    | .error _ => none
    | .ok ret =>
      match ret.first with
      | .ok (.str text) =>
        if "Error".data.isPrefixOf text.data then none
        else some { calls := [c], response := ⟨200, .json ret⟩ }
      | _ => none

/-- The answer of the chaincode invocation route: the result of `invoke` on the
`fcn`, `args` and `targets` of the body. -/
def invoked (env : Env) (req : Request) (ps : Params) : Option Answer :=
  match req.body.prop "fcn", req.body.prop "args", req.body.prop "targets" with
  | .ok fcn, .ok args, .ok targets =>
    relayed env (.invoke (param ps "channelId") (param ps "chaincodeId") fcn args targets)
  | _, _, _ => none

/-- The route table of the spec (sections 4.3 and 6), for the routes registered
through the wrapper: the LedgerClient operation each route maps to, with its
parameter extraction, and the response it answers with when the operation
succeeds. The operations are named as in `app.js`. This table is written from
the spec and is compared with the handlers of `routeTable`. -/
def routeAnswer (env : Env) (req : Request) (ps : Params) (name : String) : Option Answer :=
  if name = "GET /chaincodes" then relayed env .queryInstalledChaincodes
  else if name = "POST /chaincodes" then refused "installing chaincode on peer not implemented"
  else if name = "POST /users" then issued env req
  else if name = "GET /channels" then relayed env .queryChannels
  else if name = "POST /channels" then refused "adding channel not implemented"
  else if name = "GET /channels/:channelId" then relayed env (.queryInfo (param ps "channelId"))
  else if name = "GET /channels/:channelId/orgs" then
    relayed env (.getOrganizations (param ps "channelId"))
  else if name = "GET /channels/:channelId/peers" then
    relayed env (.getPeersForOrgOnChannel (param ps "channelId"))
  else if name = "GET /orgs/:org/peers" then relayed env (.getPeersForOrg (param ps "org"))
  else if name = "POST /channels/:channelId/orgs" then
    refused "adding organization to channel not implemented"
  else if name = "GET /channels/:channelId/blocks/:number" then
    relayed env (.queryBlock (param ps "channelId") (parseInt (param ps "number")))
  else if name = "GET /channels/:channelId/transactions/:id" then
    relayed env (.queryTransaction (param ps "channelId") (param ps "id"))
  else if name = "GET /channels/:channelId/chaincodes" then
    relayed env (.queryInstantiatedChaincodes (param ps "channelId"))
  else if name = "POST /channels/:channelId/chaincodes" then
    refused "instantiating chaincode on channel not implemented"
  else if name = "GET /channels/:channelId/chaincodes/:chaincodeId" then queried env req ps
  else if name = "POST /channels/:channelId/chaincodes/:chaincodeId" then invoked env req ps
  else none

/-- What the handler script of the named route leaves when it runs on a response
not yet sent. If it fails, it has written nothing. If it runs to its end, the
route table has an answer for the request, the one response written is that
answer, and the LedgerClient operations invoked are those of the answer. It
never logs under the tag of the wrapper. -/
def Script.Sound (name : String) (script : Script) : Prop :=
  ∀ (env : Env) (req : Request) (ps : Params) (s s1 : St) (r : Option JSError),
    s.sent = none → script env req ps s = (s1, r) →
    caught s1.trace = caught s.trace ∧
    match r with
    | some _ => s1.sent = none ∧ responses s1.trace = responses s.trace
    | none =>
      ∃ a, routeAnswer env req ps name = some a ∧ s1.sent = some a.response ∧
        responses s1.trace = responses s.trace ++ [a.response] ∧
        callsOf s1.trace = callsOf s.trace ++ a.calls

/-! ## Sample inputs -/

/-- A sample environment. The ledger rejects the identity `mallory`, fails to
list channels, answers every chaincode query with one endorser error, reports
`alice` as the name of its user, and accepts everything else. `JSON.parse` knows the empty array. The asset
directory holds `index.html`. -/
def sampleEnv : Env :=
  { secret := "s3cret"
    ledger := fun c =>
      match c with
      | .loginOrRegister (.str "mallory") _ => .error (JSError.ofMessage "enroll failed")
      | .queryChannels => .error (JSError.ofMessage "peer down")
      | .query _ _ _ _ _ => .ok (.arr [.str "Error: timeout"])
      | .getUserName => .ok (.str "alice")
      | _ => .ok .undefined
    jsonParse := fun text =>
      if text = "[]" then .ok (.arr []) else .error (JSError.ofMessage "Unexpected token")
    staticAsset := fun path =>
      if path = ["index.html"] then some ⟨200, .file "<html></html>"⟩ else none }

/-- A bearer token for `name`, signed with the secret of `sampleEnv`. -/
def tokenFor (name : String) : Option Credential :=
  some (.bearer (jsonwebtoken.sign (.str name) "s3cret"))

/-- The trace and the response object agree: the responses sent so far are the
one recorded as sent, if any. -/
def St.Consistent (s : St) : Prop := responses s.trace = s.sent.toList

/-- A request without a token for a protected path. -/
def anonymousChannels : Request := { method := .GET, path := "/channels" }

/-- A request without a token for a static asset. -/
def assetRequest : Request := { method := .GET, path := "/webapp/index.html" }

/-- A CORS preflight without a token for a protected path. -/
def preflightRequest : Request := { method := .OPTIONS, path := "/channels" }

/-- A chaincode query by `alice`, with an `args` parameter that parses. -/
def aliceQuery : Request :=
  { method := .GET, path := "/channels/ch1/chaincodes/cc1", authorization := tokenFor "alice",
    fcn := some "read", args := some "[]" }

/-- A chaincode query by `alice`, with an `args` parameter that does not parse. -/
def aliceBadArgs : Request :=
  { method := .GET, path := "/channels/ch1/chaincodes/cc1", authorization := tokenFor "alice",
    fcn := some "read", args := some "[" }

/-- A request for the channel list by `mallory`, whose identity the sample ledger
rejects. -/
def malloryChannels : Request :=
  { method := .GET, path := "/channels", authorization := tokenFor "mallory" }

/-- A request for the channel list by `alice`. -/
def aliceChannels : Request :=
  { method := .GET, path := "/channels", authorization := tokenFor "alice" }

/-- A registration of `alice`. -/
def aliceRegisters : Request :=
  { method := .POST, path := "/users",
    body := .obj [("username", .str "alice"), ("password", .str "pw")] }

/-- A request by `alice` for the block whose number segment is `text`. -/
def aliceBlock (text : String) : Request :=
  { method := .GET, path := "/channels/ch1/blocks/" ++ text, authorization := tokenFor "alice" }

/-- The route entry of `GET /channels`. -/
def channelsRoute : RouteEntry :=
  { method := .GET, name := "GET /channels", template := [.lit "channels"],
    wrapped := true, script := getChannels }

/-- The route entry of `POST /chaincodes`. -/
def installRoute : RouteEntry :=
  { method := .POST, name := "POST /chaincodes", template := [.lit "chaincodes"],
    wrapped := true, script := postChaincodes }

/-- A chaincode query by `mallory`, whose identity the sample ledger rejects. -/
def malloryQuery : Request :=
  { method := .GET, path := "/channels/ch1/chaincodes/cc1", authorization := tokenFor "mallory",
    fcn := some "read", args := some "[]" }

/-- A request for the installed chaincodes by `alice`. -/
def aliceChaincodes : Request :=
  { method := .GET, path := "/chaincodes", authorization := tokenFor "alice" }

/-- The route entry of `GET /chaincodes`. -/
def chaincodesRoute : RouteEntry :=
  { method := .GET, name := "GET /chaincodes", template := [.lit "chaincodes"],
    wrapped := true, script := getChaincodes }

/-- The sample environment with a LedgerClient that reports `bob` as the name of
its user. -/
def otherUserEnv : Env :=
  { sampleEnv with
    ledger := fun c =>
      match c with
      | .getUserName => .ok (.str "bob")
      | c => sampleEnv.ledger c }

/-- A channel list of two channels. -/
def sampleChannels : List JSVal :=
  [.obj [("channel_id", .str "ch1")], .obj [("channel_id", .str "ch2")]]

/-- A registration that fails for every channel but `ch2`. -/
def sampleRegister (channelId : JSVal) : Except JSError Unit :=
  match channelId with
  | .str "ch2" => .ok ()
  | _ => .error (JSError.ofMessage "peer down")

/-- Block events of two channels, interleaved. -/
def sampleBlocks : List Block :=
  [{ number := 5, channel_id := "ch1" }, { number := 9, channel_id := "ch2" },
   { number := 6, channel_id := "ch1" }]

/-! ## Walking the stack -/

/-- A layer that does not apply to the request is skipped. -/
theorem runStack_skip (env : Env) (req : Request) (l : Layer) (ls : List Layer) (s : St)
    (h : l.applies req = none) : runStack env req (l :: ls) s = runStack env req ls s := by
  rw [runStack, h]

/-- A layer that calls `next()` hands over to the rest of the stack. -/
theorem runStack_next (env : Env) (req : Request) (l : Layer) (ls : List Layer) (s s1 : St)
    (ps : Params) (h : l.applies req = some ps) (hr : l.run env req ps s = (s1, .next)) :
    runStack env req (l :: ls) s = runStack env req ls s1 := by
  rw [runStack, h]; simp only [hr]

/-- A layer that passes an error ends the walk. -/
theorem runStack_nextErr (env : Env) (req : Request) (l : Layer) (ls : List Layer) (s s1 : St)
    (ps : Params) (e : JSError) (h : l.applies req = some ps)
    (hr : l.run env req ps s = (s1, .nextErr e)) :
    runStack env req (l :: ls) s = (s1, .nextErr e) := by
  rw [runStack, h]; simp only [hr]

/-- A layer that does not call `next` ends the walk. -/
theorem runStack_stop (env : Env) (req : Request) (l : Layer) (ls : List Layer) (s s1 : St)
    (ps : Params) (h : l.applies req = some ps) (hr : l.run env req ps s = (s1, .stop)) :
    runStack env req (l :: ls) s = (s1, .stop) := by
  rw [runStack, h]; simp only [hr]

/-- The stack of `app`, layer by layer. -/
theorem app_eq : app = useLayer "bodyParser" bodyParser :: useLayer "cors" cors ::
    optionsLayer "options cors" cors :: mountLayer "static" "webapp" serveStatic ::
    useLayer "jwt" jwtGate :: useLayer "identity" identity :: appRouter := rfl

/-- A body that cannot be parsed ends the walk at the body parser. -/
theorem runStack_malformed (env : Env) (req : Request) (h : req.bodyMalformed = true) :
    runStack env req app St.initial = (St.initial, .nextErr badRequest) := by
  rw [app_eq]
  exact runStack_nextErr _ _ _ _ _ _ [] _ rfl (by simp [useLayer, bodyParser, h])

/-- A preflight request is answered by the `cors` layer. -/
theorem runStack_preflight (env : Env) (req : Request) (h : req.bodyMalformed = false)
    (hm : req.method = .OPTIONS) :
    runStack env req app St.initial =
      ({ St.initial with sent := some ⟨204, .empty⟩, trace := [.respond ⟨204, .empty⟩] },
        .stop) := by
  rw [app_eq, runStack_next _ _ _ _ _ St.initial [] rfl (by simp [useLayer, bodyParser, h])]
  exact runStack_stop _ _ _ _ _ _ [] rfl
    (by simp [useLayer, cors, hm, St.write, St.initial, St.log])

/-- A static asset is answered by the static layer. -/
theorem runStack_static (env : Env) (req : Request) (r : Response)
    (h : req.bodyMalformed = false) (hm : req.method ≠ .OPTIONS)
    (hs : staticAnswer env req = some r) :
    runStack env req app St.initial =
      ({ St.initial with sent := some r, trace := [.respond r] }, .stop) := by
  rw [app_eq, runStack_next _ _ _ _ _ St.initial [] rfl (by simp [useLayer, bodyParser, h]),
    runStack_next _ _ _ _ _ St.initial [] rfl (by simp [useLayer, cors, hm]),
    runStack_skip _ _ _ _ _ (by simp [optionsLayer, hm])]
  unfold staticAnswer at hs
  cases ha : (mountLayer "static" "webapp" serveStatic).applies req with
  | none => simp [ha] at hs
  | some ps =>
    simp only [ha] at hs
    split at hs
    · rename_i hget
      refine runStack_stop _ _ _ _ _ _ ps ha ?_
      simp [mountLayer, serveStatic, hget, hs, St.write, St.initial, St.log]
    · simp at hs

/-- Any other request reaches the JWT gate in its initial state. -/
theorem runStack_gate (env : Env) (req : Request)
    (h : req.bodyMalformed = false) (hm : req.method ≠ .OPTIONS)
    (hs : staticAnswer env req = none) :
    runStack env req app St.initial =
      runStack env req (useLayer "jwt" jwtGate :: useLayer "identity" identity :: appRouter)
        St.initial := by
  rw [app_eq, runStack_next _ _ _ _ _ St.initial [] rfl (by simp [useLayer, bodyParser, h]),
    runStack_next _ _ _ _ _ St.initial [] rfl (by simp [useLayer, cors, hm]),
    runStack_skip _ _ _ _ _ (by simp [optionsLayer, hm])]
  unfold staticAnswer at hs
  cases ha : (mountLayer "static" "webapp" serveStatic).applies req with
  | none => rw [runStack_skip _ _ _ _ _ ha]
  | some ps =>
    simp only [ha] at hs
    refine runStack_next _ _ _ _ _ _ ps ha ?_
    split at hs
    · rename_i hget
      simp [mountLayer, serveStatic, hget, hs]
    · rename_i hget
      simp [mountLayer, serveStatic, hget]

/-- At the gate, a protected path without a valid token is passed on as a 401 error. -/
theorem runStack_unauthorized (env : Env) (req : Request)
    (h : req.bodyMalformed = false) (hm : req.method ≠ .OPTIONS)
    (hs : staticAnswer env req = none)
    (hpath : req.path ∉ publicPaths) (htok : bearerSub env req = none) :
    runStack env req app St.initial = (St.initial, .nextErr unauthorized) := by
  rw [runStack_gate env req h hm hs]
  exact runStack_nextErr _ _ _ _ _ _ [] _ rfl (by simp [useLayer, jwtGate, hpath, htok])

/-- C1 (amended): a request whose path is none of `/`, `/users`, `/mspid` and that carries no bearer
token verifying against the shared secret invokes no LedgerClient operation and lets no route
handler run; and unless a layer mounted before the JWT gate answered it (a body that cannot be
parsed, a CORS preflight, a static asset under `/webapp`), its only response is the 401 of the
gate. -/
theorem unauthenticated_request_is_stopped (env : Env) (req : Request)
    (hpath : req.path ∉ publicPaths) (htok : bearerSub env req = none) :
    (handle env req).trace.all (fun e => !e.isCall && !e.isHandler) = true ∧
    (¬ answeredBeforeGate env req →
      responses (handle env req).trace = [⟨401, .errorPage⟩]) := by
  have hh : handle env req =
      finalhandler (runStack env req app St.initial).1
        (runStack env req app St.initial).2 := rfl
  rw [hh]
  cases hb : req.bodyMalformed with
  | true =>
    rw [runStack_malformed env req hb]
    simp [answeredBeforeGate, hb, finalhandler, St.initial, St.write, St.log, Event.isCall,
      Event.isHandler, badRequest]
  | false =>
    by_cases hm : req.method = .OPTIONS
    · rw [runStack_preflight env req hb hm]
      simp [answeredBeforeGate, hm, finalhandler, Event.isCall, Event.isHandler]
    · cases hs : staticAnswer env req with
      | some r =>
        rw [runStack_static env req r hb hm hs]
        simp [answeredBeforeGate, hs, finalhandler, Event.isCall, Event.isHandler]
      | none =>
        rw [runStack_unauthorized env req hb hm hs hpath htok]
        simp [answeredBeforeGate, hs, hm, hb, finalhandler, St.initial, St.write, St.log,
          Event.isCall, Event.isHandler, unauthorized, responses, Event.response?]
/-- Only the layers that apply to the request take part in the walk. -/
theorem runStack_filter (env : Env) (req : Request) (ls : List Layer) (s : St) :
    runStack env req ls s =
      runStack env req (ls.filter (fun l => (l.applies req).isSome)) s := by
  induction ls generalizing s with
  | nil => rfl
  | cons l ls ih =>
    cases h : l.applies req with
    | none => rw [runStack_skip _ _ _ _ _ h, ih]; simp [List.filter, h]
    | some ps =>
      have : (l :: ls).filter (fun l => (l.applies req).isSome) =
          l :: ls.filter (fun l => (l.applies req).isSome) := by simp [List.filter, h]
      rw [this, runStack, runStack, h]
      simp only
      rcases l.run env req ps s with ⟨s1, n⟩
      cases n <;> simp [ih]

/-- A walk over a single applicable layer is that layer. -/
theorem runStack_single (env : Env) (req : Request) (l : Layer) (ps : Params) (s : St)
    (h : l.applies req = some ps) : runStack env req [l] s = l.run env req ps s := by
  rw [runStack, h]
  simp only
  rcases l.run env req ps s with ⟨s1, n⟩
  cases n <;> simp [runStack]


/-- Four segments whose last is not empty have no trailing slash to drop. -/
theorem dropTrailingSlash_eq (a b c d : String) (hd : d ≠ "") :
    dropTrailingSlash [a, b, c, d] = [a, b, c, d] := by
  simp [dropTrailingSlash]
  split
  · rename_i h; simp at h; exact absurd h hd
  · rfl

/-- A `GET /channels/:channelId/chaincodes/:chaincodeId` request is served by the chaincode query
handler, and by no other route. -/
theorem query_dispatch (env : Env) (req : Request) (ch cc : String) (s : St)
    (hm : req.method = .GET) (hseg : segments req.path = ["channels", ch, "chaincodes", cc])
    (hch : ch ≠ "") (hcc : cc ≠ "") :
    runStack env req appRouter s =
      asyncMiddleware (asyncFn getChaincodeQuery) env req
        [("channelId", ch), ("chaincodeId", cc)] s := by
  rw [runStack_filter]
  have hl : lower "channels" = "channels" := by decide
  have hl2 : lower "chaincodes" = "chaincodes" := by decide
  simp [appRouter, routeTable, RouteEntry.layer, List.filter, methodMatches, hm, hseg,
    dropTrailingSlash_eq _ _ _ _ hcc, matchPattern, hl, hl2, hch, hcc]
  rw [runStack_single env req _ [("channelId", ch), ("chaincodeId", cc)] s
    (by simp [methodMatches, hm, hseg, dropTrailingSlash_eq _ _ _ _ hcc, matchPattern, hl, hl2,
      hch, hcc])]
  simp [RouteEntry.fn]

/-- A path of two or more segments is not on the public list. -/
theorem not_public_of_segments (path : String) (h : 2 ≤ (segments path).length) :
    path ∉ publicPaths := by
  intro hp
  simp only [publicPaths, List.mem_cons, List.mem_singleton, List.not_mem_nil, or_false] at hp
  rcases hp with rfl | rfl | rfl <;> revert h <;> decide

/-- Outside the mount point the static layer answers nothing. -/
theorem staticAnswer_none (env : Env) (req : Request) (x : String) (rest : List String)
    (hseg : segments req.path = x :: rest) (hx : lower x ≠ "webapp") :
    staticAnswer env req = none := by
  simp [staticAnswer, mountLayer, hseg, hx]

/-- The router is reached by an authenticated request whose identity is accepted. -/
theorem runStack_login_ok (env : Env) (req : Request) (sub v w : JSVal)
    (hb : req.bodyMalformed = false) (hm : req.method ≠ .OPTIONS)
    (hs : staticAnswer env req = none) (hpath : req.path ∉ publicPaths)
    (htok : bearerSub env req = some sub) (hinit : env.ledger .init = .ok v)
    (hlogin : env.ledger (.loginOrRegister sub .undefined) = .ok w) :
    runStack env req app St.initial =
      runStack env req appRouter (St.identified sub) := by
  rw [runStack_gate env req hb hm hs,
    runStack_next _ _ _ _ _ { St.initial with principal := some sub } [] rfl
      (by simp [useLayer, jwtGate, hpath, htok])]
  refine runStack_next _ _ _ _ _ _ [] rfl ?_
  simp [useLayer, identity, St.invoke, hinit, loginOrRegister, hlogin, St.log, St.initial,
    St.identified]

/-- The router is reached by an authenticated request whose identity is rejected. -/
theorem runStack_login_failed (env : Env) (req : Request) (sub v : JSVal) (e : JSError)
    (hb : req.bodyMalformed = false) (hm : req.method ≠ .OPTIONS)
    (hs : staticAnswer env req = none) (hpath : req.path ∉ publicPaths)
    (htok : bearerSub env req = some sub) (hinit : env.ledger .init = .ok v)
    (hlogin : env.ledger (.loginOrRegister sub .undefined) = .error e) :
    runStack env req app St.initial =
      runStack env req appRouter (St.rejected sub e) := by
  rw [runStack_gate env req hb hm hs,
    runStack_next _ _ _ _ _ { St.initial with principal := some sub } [] rfl
      (by simp [useLayer, jwtGate, hpath, htok])]
  refine runStack_next _ _ _ _ _ _ [] rfl ?_
  simp [useLayer, identity, St.invoke, hinit, loginOrRegister, hlogin, St.log, St.initial,
    St.write, St.rejected]

/-- The router is reached by a request for a public path. -/
theorem runStack_public (env : Env) (req : Request) (v : JSVal)
    (hb : req.bodyMalformed = false) (hm : req.method ≠ .OPTIONS)
    (hs : staticAnswer env req = none) (hpath : req.path ∈ publicPaths)
    (hinit : env.ledger .init = .ok v) :
    runStack env req app St.initial =
      runStack env req appRouter St.anonymous := by
  rw [runStack_gate env req hb hm hs,
    runStack_next _ _ _ _ _ St.initial [] rfl (by simp [useLayer, jwtGate, hpath])]
  refine runStack_next _ _ _ _ _ _ [] rfl ?_
  simp [useLayer, identity, St.invoke, hinit, St.log, St.initial, St.anonymous]

/-- Processing a request is the walk over the stack followed by the final handler. -/
theorem handle_eq (env : Env) (req : Request) :
    handle env req = finalhandler (runStack env req app St.initial).1
        (runStack env req app St.initial).2 := rfl

/-- The wrapper leaves a handler that ran to its end alone. -/
theorem asyncMiddleware_resolved (script : Script) (env : Env) (req : Request) (ps : Params)
    (s s1 : St) (h : script env req ps s = (s1, none)) :
    asyncMiddleware (asyncFn script) env req ps s = (s1, .stop) := by
  simp [asyncMiddleware, asyncFn, h]

/-- The wrapper answers a failed handler with 500 and the message, on a response not yet sent. -/
theorem asyncMiddleware_rejected (script : Script) (env : Env) (req : Request) (ps : Params)
    (s s1 : St) (e : JSError) (h : script env req ps s = (s1, some e)) (hs : s1.sent = none) :
    asyncMiddleware (asyncFn script) env req ps s =
      ({ s1 with
          sent := some ⟨500, .json (.str e.message)⟩
          trace := s1.trace ++ [.logError "asyncMiddleware" e,
            .respond ⟨500, .json (.str e.message)⟩] }, .next) := by
  simp [asyncMiddleware, asyncFn, h, St.write, St.log, hs]

/-- On a response already sent the write of the wrapper is refused and escapes as an unhandled
rejection. -/
theorem asyncMiddleware_rejected_sent (script : Script) (env : Env) (req : Request)
    (ps : Params) (s s1 : St) (e : JSError) (r : Response)
    (h : script env req ps s = (s1, some e)) (hs : s1.sent = some r) :
    asyncMiddleware (asyncFn script) env req ps s =
      ({ s1 with
          trace := s1.trace ++ [.logError "asyncMiddleware" e,
            .writeRejected ⟨500, .json (.str e.message)⟩,
            .unhandledRejection JSError.headersSent] }, .stop) := by
  simp [asyncMiddleware, asyncFn, h, St.write, St.log, hs]

/-- Reading the first parameter. -/
theorem param_channelId (ch : String) (rest : Params) :
    param (("channelId", ch) :: rest) "channelId" = ch := by
  simp [param, List.lookup]

/-- Reading the second parameter. -/
theorem param_second (k : String) (ch x : String) (hk : k ≠ "channelId") :
    param [("channelId", ch), (k, x)] k = x := by
  have hne : (k == "channelId") = false := by simpa using hk
  simp [param, List.lookup, hne]

/-- For a `GET /channels/:channelId/chaincodes/:chaincodeId` request whose identity the ledger
accepted (body parsed, bearer token verified, `init` and `loginOrRegister` accepted) and whose
`args` parse, if the first element of the result of the LedgerClient `query` is a text that
begins with `Error`, then the only response is 500 with that text as JSON body; the success
response (status 200 with the result array) is not written. -/
theorem query_endorser_error_yields_500 (env : Env) (req : Request) (ch cc text : String)
    (sub v w args ret : JSVal)
    (hm : req.method = .GET) (hseg : segments req.path = ["channels", ch, "chaincodes", cc])
    (hch : ch ≠ "") (hcc : cc ≠ "")
    (hb : req.bodyMalformed = false)
    (htok : bearerSub env req = some sub) (hinit : env.ledger .init = .ok v)
    (hlogin : env.ledger (.loginOrRegister sub .undefined) = .ok w)
    (hargs : env.jsonParse (req.args.getD "undefined") = .ok args)
    (hq : env.ledger (.query ch cc (JSVal.ofParam req.fcn) args (JSVal.ofParam req.targets))
      = .ok ret)
    (hfirst : ret.first = .ok (.str text))
    (hpre : "Error".data.isPrefixOf text.data = true) :
    responses (handle env req).trace = [⟨500, .json (.str text)⟩] ∧
    (handle env req).sent = some ⟨500, .json (.str text)⟩ ∧
    ∀ r ∈ responses (handle env req).trace, r.status ≠ 200 := by
  have hl : lower "channels" ≠ "webapp" := by decide
  rw [handle_eq, runStack_login_ok env req sub v w hb (by simp [hm])
      (staticAnswer_none env req _ _ hseg hl)
      (not_public_of_segments _ (by simp [hseg])) htok hinit hlogin,
    query_dispatch env req ch cc _ hm hseg hch hcc]
  rw [asyncMiddleware_rejected getChaincodeQuery env req _ (St.identified sub)
    (((St.identified sub).log (.handler "GET /channels/:channelId/chaincodes/:chaincodeId")).log
      (.call (.query ch cc (JSVal.ofParam req.fcn) args (JSVal.ofParam req.targets))))
    (JSError.ofMessage text)
    (by simp [getChaincodeQuery, hargs, St.invoke, param_channelId,
      param_second "chaincodeId" ch cc (by decide), hq, hfirst,
      JSVal.startsWith, hpre, St.log]) rfl]
  simp [finalhandler, responses, Event.response?, JSError.ofMessage, St.log, St.identified]


/-- C3: for a `GET /channels/:channelId/chaincodes/:chaincodeId` request that reaches its handler
(body parsed, bearer token verified, `init` accepted) and whose `args` query parameter
`JSON.parse` rejects, the one response has status 500 and the LedgerClient `query` operation is
never invoked. -/
theorem query_malformed_args_yields_500 (env : Env) (req : Request) (ch cc : String)
    (sub v : JSVal) (e : JSError)
    (hm : req.method = .GET) (hseg : segments req.path = ["channels", ch, "chaincodes", cc])
    (hch : ch ≠ "") (hcc : cc ≠ "")
    (hb : req.bodyMalformed = false)
    (htok : bearerSub env req = some sub) (hinit : env.ledger .init = .ok v)
    (hargs : env.jsonParse (req.args.getD "undefined") = .error e) :
    (responses (handle env req).trace).map (fun r => r.status) = [500] ∧
    (handle env req).trace.all (fun ev => !ev.isQueryCall) = true := by
  have hl : lower "channels" ≠ "webapp" := by decide
  have hscript : ∀ s : St, getChaincodeQuery env req [("channelId", ch), ("chaincodeId", cc)] s =
      (s.log (.handler "GET /channels/:channelId/chaincodes/:chaincodeId"), some e) := by
    intro s; simp [getChaincodeQuery, hargs]
  cases hlogin : env.ledger (.loginOrRegister sub .undefined) with
  | ok w =>
    rw [handle_eq, runStack_login_ok env req sub v w hb (by simp [hm])
        (staticAnswer_none env req _ _ hseg hl)
        (not_public_of_segments _ (by simp [hseg])) htok hinit hlogin,
      query_dispatch env req ch cc _ hm hseg hch hcc,
      asyncMiddleware_rejected getChaincodeQuery env req _ (St.identified sub) _ e (hscript _) rfl]
    simp [finalhandler, responses, Event.response?, St.log, Event.isQueryCall, Call.isQuery,
      St.identified, St.rejected]
  | error e1 =>
    rw [handle_eq, runStack_login_failed env req sub v e1 hb (by simp [hm])
        (staticAnswer_none env req _ _ hseg hl)
        (not_public_of_segments _ (by simp [hseg])) htok hinit hlogin,
      query_dispatch env req ch cc _ hm hseg hch hcc,
      asyncMiddleware_rejected_sent getChaincodeQuery env req _ (St.rejected sub e1) _ e _
        (hscript _) rfl]
    simp [finalhandler, responses, Event.response?, St.log, Event.isQueryCall, Call.isQuery,
      St.identified, St.rejected]

/-- The responses of a concatenated trace. -/
theorem responses_append (xs ys : List Event) :
    responses (xs ++ ys) = responses xs ++ responses ys := by
  simp [responses]

/-- The caught errors of a concatenated trace. -/
theorem caught_append (xs ys : List Event) : caught (xs ++ ys) = caught xs ++ caught ys := by
  simp [caught]

/-- The LedgerClient operations of a concatenated trace. -/
theorem callsOf_append (xs ys : List Event) : callsOf (xs ++ ys) = callsOf xs ++ callsOf ys := by
  simp [callsOf]

/-- A handler of the form `res.json(await op(...))` is sound for a route whose
table entry relays that operation. -/
theorem relay_sound (name : String) (f : Request → Params → Call)
    (htable : ∀ env req ps, routeAnswer env req ps name = relayed env (f req ps)) :
    Script.Sound name (fun env req ps s => relay env (f req ps) (s.log (.handler name))) := by
  intro env req ps s s1 r hs h
  simp only [relay, St.invoke, St.log, St.write, hs] at h
  cases hl : env.ledger (f req ps) with
  | error e =>
    simp only [hl, Prod.mk.injEq] at h
    obtain ⟨rfl, rfl⟩ := h
    simp [caught, Event.logged?, responses, Event.response?, hs]
  | ok v =>
    simp only [hl, Prod.mk.injEq] at h
    obtain ⟨rfl, rfl⟩ := h
    refine ⟨by simp [caught, Event.logged?], ?_⟩
    refine ⟨{ calls := [f req ps], response := ⟨200, .json v⟩ }, ?_, rfl, ?_, ?_⟩
    · rw [htable]; simp [relayed, hl]
    · simp [responses, Event.response?]
    · simp [callsOf, Event.call?]

/-- A not-implemented handler is sound for a route whose table entry refuses
with the same message. -/
theorem notImplemented_sound (name msg : String)
    (htable : ∀ env req ps, routeAnswer env req ps name = refused msg) :
    Script.Sound name (fun _ _ _ s => notImplemented msg (s.log (.handler name))) := by
  intro env req ps s s1 r hs h
  simp only [notImplemented, St.log, St.write, hs, Prod.mk.injEq] at h
  obtain ⟨rfl, rfl⟩ := h
  refine ⟨by simp [caught, Event.logged?], ?_⟩
  refine ⟨{ calls := [], response := ⟨501, .json (.str msg)⟩ }, ?_, rfl, ?_, ?_⟩
  · rw [htable]; rfl
  · simp [responses, Event.response?]
  · simp [callsOf, Event.call?]

/-- The handler of `POST /users` is sound. -/
theorem postUsers_sound : Script.Sound "POST /users" postUsers := by
  intro env req ps s s1 r hs h
  have htable : routeAnswer env req ps "POST /users" = issued env req := by
    simp [routeAnswer]
  rw [htable]
  simp only [postUsers, issued, loginOrRegister, getUserName, St.invoke, St.log] at h ⊢
  cases hu : req.body.prop "username" with
  | error e =>
    simp only [hu, Prod.mk.injEq] at h
    obtain ⟨rfl, rfl⟩ := h
    simp [caught, Event.logged?, responses, Event.response?, hs]
  | ok username =>
    cases hp : req.body.prop "password" with
    | error e =>
      simp only [hu, hp, Prod.mk.injEq] at h
      obtain ⟨rfl, rfl⟩ := h
      simp [caught, Event.logged?, responses, Event.response?, hs]
    | ok password =>
      cases hl : env.ledger (.loginOrRegister username password) with
      | error e =>
        simp only [hu, hp, hl, Prod.mk.injEq] at h
        obtain ⟨rfl, rfl⟩ := h
        simp [caught, Event.logged?, responses, Event.response?, hs]
      | ok v =>
        cases hn : env.ledger .getUserName with
        | error e =>
          simp only [hu, hp, hl, hn, Prod.mk.injEq] at h
          obtain ⟨rfl, rfl⟩ := h
          simp [caught, Event.logged?, responses, Event.response?, hs]
        | ok name =>
          simp only [hu, hp, hl, hn, St.write, St.log, hs, Prod.mk.injEq] at h
          obtain ⟨rfl, rfl⟩ := h
          refine ⟨by simp [caught, Event.logged?],
            { calls := [.loginOrRegister username password, .getUserName, .getSecret]
              response := ⟨200, .jwt (jsonwebtoken.sign name env.secret)⟩ }, ?_, rfl, ?_, ?_⟩
          · simp [hu, hp, hl, hn]
          · simp [responses, Event.response?]
          · simp [callsOf, Event.call?]

/-- The chaincode query handler is sound. -/
theorem getChaincodeQuery_sound :
    Script.Sound "GET /channels/:channelId/chaincodes/:chaincodeId" getChaincodeQuery := by
  intro env req ps s s1 r hs h
  have htable : routeAnswer env req ps "GET /channels/:channelId/chaincodes/:chaincodeId" =
      queried env req ps := by
    simp [routeAnswer]
  rw [htable]
  simp only [getChaincodeQuery, queried, St.invoke, St.log] at h ⊢
  cases hargs : env.jsonParse (req.args.getD "undefined") with
  | error e =>
    simp only [hargs, Prod.mk.injEq] at h
    obtain ⟨rfl, rfl⟩ := h
    simp [caught, Event.logged?, responses, Event.response?, hs]
  | ok args =>
    cases hq : env.ledger (.query (param ps "channelId") (param ps "chaincodeId")
        (JSVal.ofParam req.fcn) args (JSVal.ofParam req.targets)) with
    | error e =>
      simp only [hargs, hq, Prod.mk.injEq] at h
      obtain ⟨rfl, rfl⟩ := h
      simp [caught, Event.logged?, responses, Event.response?, hs]
    | ok ret =>
      cases hf : ret.first with
      | error e =>
        simp only [hargs, hq, hf, Prod.mk.injEq] at h
        obtain ⟨rfl, rfl⟩ := h
        simp [caught, Event.logged?, responses, Event.response?, hs]
      | ok r0 =>
        cases r0 with
        | str text =>
          cases hpre : "Error".data.isPrefixOf text.data with
          | true =>
            simp only [hargs, hq, hf, JSVal.startsWith, hpre, Prod.mk.injEq] at h
            obtain ⟨rfl, rfl⟩ := h
            simp [caught, Event.logged?, responses, Event.response?, hs]
          | false =>
            simp only [hargs, hq, hf, JSVal.startsWith, hpre, St.write, St.log, hs,
              Prod.mk.injEq] at h
            obtain ⟨rfl, rfl⟩ := h
            refine ⟨by simp [caught, Event.logged?],
              { calls := [.query (param ps "channelId") (param ps "chaincodeId")
                  (JSVal.ofParam req.fcn) args (JSVal.ofParam req.targets)]
                response := ⟨200, .json ret⟩ }, ?_, rfl, ?_, ?_⟩
            · simp [hargs, hq, hf, hpre]
            · simp [responses, Event.response?]
            · simp [callsOf, Event.call?]
        | undefined | null | bool _ | num _ | arr _ | obj _ =>
          simp only [hargs, hq, hf, JSVal.startsWith, Prod.mk.injEq] at h
          obtain ⟨rfl, rfl⟩ := h
          simp [caught, Event.logged?, responses, Event.response?, hs]

/-- The chaincode invocation handler is sound. -/
theorem postChaincodeInvoke_sound :
    Script.Sound "POST /channels/:channelId/chaincodes/:chaincodeId" postChaincodeInvoke := by
  intro env req ps s s1 r hs h
  have htable : routeAnswer env req ps "POST /channels/:channelId/chaincodes/:chaincodeId" =
      invoked env req ps := by
    simp [routeAnswer]
  rw [htable]
  simp only [postChaincodeInvoke, invoked, relay, relayed, St.invoke, St.log] at h ⊢
  cases hf : req.body.prop "fcn" with
  | error e =>
    simp only [hf, Prod.mk.injEq] at h
    obtain ⟨rfl, rfl⟩ := h
    simp [caught, Event.logged?, responses, Event.response?, hs]
  | ok fcn =>
    cases ha : req.body.prop "args" with
    | error e =>
      simp only [hf, ha, Prod.mk.injEq] at h
      obtain ⟨rfl, rfl⟩ := h
      simp [caught, Event.logged?, responses, Event.response?, hs]
    | ok args =>
      cases ht : req.body.prop "targets" with
      | error e =>
        simp only [hf, ha, ht, Prod.mk.injEq] at h
        obtain ⟨rfl, rfl⟩ := h
        simp [caught, Event.logged?, responses, Event.response?, hs]
      | ok targets =>
        cases hl : env.ledger (.invoke (param ps "channelId") (param ps "chaincodeId")
            fcn args targets) with
        | error e =>
          simp only [hf, ha, ht, hl, Prod.mk.injEq] at h
          obtain ⟨rfl, rfl⟩ := h
          simp [caught, Event.logged?, responses, Event.response?, hs]
        | ok v =>
          simp only [hf, ha, ht, hl, St.write, St.log, hs, Prod.mk.injEq] at h
          obtain ⟨rfl, rfl⟩ := h
          refine ⟨by simp [caught, Event.logged?],
            { calls := [.invoke (param ps "channelId") (param ps "chaincodeId") fcn args targets]
              response := ⟨200, .json v⟩ }, ?_, rfl, ?_, ?_⟩
          · simp [hf, ha, ht, hl]
          · simp [responses, Event.response?]
          · simp [callsOf, Event.call?]

/-- Every wrapped handler of the route table is sound for its own route. -/
theorem routeTable_sound (r : RouteEntry) (hr : r ∈ routeTable) (hw : r.wrapped = true) :
    Script.Sound r.name r.script := by
  simp only [routeTable, List.mem_cons, List.mem_singleton, List.not_mem_nil, or_false] at hr
  rcases hr with rfl | rfl | rfl | rfl | rfl | rfl | rfl | rfl | rfl | rfl | rfl | rfl | rfl |
    rfl | rfl | rfl | rfl | rfl | rfl
  · simp at hw
  · simp at hw
  · simp at hw
  · exact relay_sound _ (fun _ _ => .queryInstalledChaincodes) (fun _ _ _ => by simp [routeAnswer])
  · exact notImplemented_sound _ _ (fun _ _ _ => by simp [routeAnswer])
  · exact postUsers_sound
  · exact relay_sound _ (fun _ _ => .queryChannels) (fun _ _ _ => by simp [routeAnswer])
  · exact notImplemented_sound _ _ (fun _ _ _ => by simp [routeAnswer])
  · exact relay_sound _ (fun _ ps => .queryInfo (param ps "channelId"))
      (fun _ _ _ => by simp [routeAnswer])
  · exact relay_sound _ (fun _ ps => .getOrganizations (param ps "channelId"))
      (fun _ _ _ => by simp [routeAnswer])
  · exact relay_sound _ (fun _ ps => .getPeersForOrgOnChannel (param ps "channelId"))
      (fun _ _ _ => by simp [routeAnswer])
  · exact relay_sound _ (fun _ ps => .getPeersForOrg (param ps "org"))
      (fun _ _ _ => by simp [routeAnswer])
  · exact notImplemented_sound _ _ (fun _ _ _ => by simp [routeAnswer])
  · exact relay_sound _
      (fun _ ps => .queryBlock (param ps "channelId") (parseInt (param ps "number")))
      (fun _ _ _ => by simp [routeAnswer])
  · exact relay_sound _ (fun _ ps => .queryTransaction (param ps "channelId") (param ps "id"))
      (fun _ _ _ => by simp [routeAnswer])
  · exact relay_sound _ (fun _ ps => .queryInstantiatedChaincodes (param ps "channelId"))
      (fun _ _ _ => by simp [routeAnswer])
  · exact notImplemented_sound _ _ (fun _ _ _ => by simp [routeAnswer])
  · exact getChaincodeQuery_sound
  · exact postChaincodeInvoke_sound

/-- C5: for every route handler of `appRouter` wrapped by `asyncMiddleware`, run on a response
not yet sent: if the handler runs to its end, the wrapper adds nothing, and the one response
written is the result of the route as the route table of the spec gives it (the result of the
LedgerClient operation of that route as JSON, the not-implemented message of that route, or
the signed token), the operations invoked being those of the route; if the handler fails with
`e` (an error raised in its `async` body or a rejected LedgerClient operation), the failure is
logged once under the tag of the wrapper and the one response written is 500 with `e.message`
as JSON body. -/
theorem asyncMiddleware_contract (r : RouteEntry) (hr : r ∈ routeTable) (hw : r.wrapped = true)
    (env : Env) (req : Request) (ps : Params) (s s1 : St) (out : Option JSError)
    (hs : s.sent = none) (hrun : r.script env req ps s = (s1, out)) :
    match out with
    | none =>
      r.fn env req ps s = (s1, .stop) ∧ caught s1.trace = caught s.trace ∧
      ∃ a, routeAnswer env req ps r.name = some a ∧ s1.sent = some a.response ∧
        responses s1.trace = responses s.trace ++ [a.response] ∧
        callsOf s1.trace = callsOf s.trace ++ a.calls
    | some e =>
      ∃ s2, r.fn env req ps s = (s2, .next) ∧
        s2.sent = some ⟨500, .json (.str e.message)⟩ ∧
        responses s2.trace = responses s.trace ++ [⟨500, .json (.str e.message)⟩] ∧
        caught s2.trace = caught s.trace ++ [e] := by
  have hsound := routeTable_sound r hr hw env req ps s s1 out hs hrun
  cases out with
  | none =>
    simp only at hsound ⊢
    refine ⟨?_, hsound.1, hsound.2⟩
    simp [RouteEntry.fn, hw, asyncMiddleware_resolved r.script env req ps s s1 hrun]
  | some e =>
    simp only at hsound ⊢
    obtain ⟨hc, hsent, hresp⟩ := hsound
    refine ⟨{ s1 with
        sent := some ⟨500, .json (.str e.message)⟩
        trace := s1.trace ++ [.logError "asyncMiddleware" e,
          .respond ⟨500, .json (.str e.message)⟩] }, ?_, rfl, ?_, ?_⟩
    · simp only [RouteEntry.fn, hw, if_true]
      exact asyncMiddleware_rejected r.script env req ps s s1 e hrun hsent
    · show responses (s1.trace ++ _) = _
      rw [responses_append, hresp]
      simp [responses, Event.response?]
    · show caught (s1.trace ++ _) = _
      rw [caught_append, hc]
      simp [caught, Event.logged?]

/-- C8: the handlers of `POST /chaincodes`, `POST /channels`, `POST /channels/:channelId/orgs` and
`POST /channels/:channelId/chaincodes`, run on a response not yet sent, write status 501 with a
payload fixed per route, whatever the environment, the request (its body included) and the
parameters, and add nothing else to the trace but their own start: no LedgerClient operation is
invoked. -/
theorem not_implemented_routes (r : RouteEntry) (hr : r ∈ routeTable)
    (hname : r.name ∈ ["POST /chaincodes", "POST /channels", "POST /channels/:channelId/orgs",
      "POST /channels/:channelId/chaincodes"]) :
    r.method = .POST ∧
    ∃ payload : JSVal, ∀ (env : Env) (req : Request) (ps : Params) (s : St), s.sent = none →
      r.fn env req ps s =
        ({ s with
            sent := some ⟨501, .json payload⟩
            trace := s.trace ++ [.handler r.name, .respond ⟨501, .json payload⟩] }, .stop) := by
  have key : ∀ (name msg : String) (env : Env) (req : Request) (ps : Params) (s : St),
      s.sent = none →
      asyncMiddleware (asyncFn (fun _ _ _ s => notImplemented msg (s.log (.handler name))))
        env req ps s =
        ({ s with
            sent := some ⟨501, .json (.str msg)⟩
            trace := s.trace ++ [.handler name, .respond ⟨501, .json (.str msg)⟩] }, .stop) := by
    intro name msg env req ps s hs
    simp [asyncMiddleware, asyncFn, notImplemented, St.write, St.log, hs]
  simp only [routeTable, List.mem_cons, List.mem_singleton, List.not_mem_nil, or_false] at hr
  rcases hr with rfl | rfl | rfl | rfl | rfl | rfl | rfl | rfl | rfl | rfl | rfl | rfl | rfl |
    rfl | rfl | rfl | rfl | rfl | rfl
  · exact absurd hname (by decide)
  · exact absurd hname (by decide)
  · exact absurd hname (by decide)
  · exact absurd hname (by decide)
  · exact ⟨rfl, .str "installing chaincode on peer not implemented",
      fun env req ps s hs => key _ _ env req ps s hs⟩
  · exact absurd hname (by decide)
  · exact absurd hname (by decide)
  · exact ⟨rfl, .str "adding channel not implemented",
      fun env req ps s hs => key _ _ env req ps s hs⟩
  · exact absurd hname (by decide)
  · exact absurd hname (by decide)
  · exact absurd hname (by decide)
  · exact absurd hname (by decide)
  · exact ⟨rfl, .str "adding organization to channel not implemented",
      fun env req ps s hs => key _ _ env req ps s hs⟩
  · exact absurd hname (by decide)
  · exact absurd hname (by decide)
  · exact absurd hname (by decide)
  · exact ⟨rfl, .str "instantiating chaincode on channel not implemented",
      fun env req ps s hs => key _ _ env req ps s hs⟩
  · exact absurd hname (by decide)
  · exact absurd hname (by decide)

/-- The code of a decimal digit. -/
theorem digit_toNat (c : Char) (h : '0' ≤ c ∧ c ≤ '9') : 48 ≤ c.toNat ∧ c.toNat ≤ 57 := by
  obtain ⟨h1, h2⟩ := h
  have h1' : ('0' : Char).val ≤ c.val := h1
  have h2' : c.val ≤ ('9' : Char).val := h2
  rw [UInt32.le_def] at h1' h2'
  constructor
  · exact h1'
  · exact h2'

/-- A decimal digit differs from any character outside the digit range. -/
theorem digit_ne (c d : Char) (h : '0' ≤ c ∧ c ≤ '9') (hd : d.toNat < 48 ∨ 57 < d.toNat) :
    c ≠ d := by
  rintro rfl
  have := digit_toNat c h
  omega

/-- A decimal digit is not white space. -/
theorem digit_not_space (c : Char) (h : '0' ≤ c ∧ c ≤ '9') : isStrWhiteSpace c = false := by
  have hn := digit_toNat c h
  have e1 := digit_ne c ' ' h (by decide)
  have e2 := digit_ne c '\t' h (by decide)
  have e3 := digit_ne c '\n' h (by decide)
  have e4 := digit_ne c '\r' h (by decide)
  simp [isStrWhiteSpace, e1, e2, e3, e4]
  omega

/-- The value of a decimal digit in radix 10. -/
theorem digitValue_digit (c : Char) (h : '0' ≤ c ∧ c ≤ '9') :
    digitValue 10 c = some (c.toNat - 48) := by
  have hn := digit_toNat c h
  simp [digitValue, h, Option.filter]
  omega

/-- A text of decimal digits is read whole. -/
theorem leadingDigits_digits (cs : List Char) (h : ∀ c ∈ cs, '0' ≤ c ∧ c ≤ '9') :
    leadingDigits 10 cs = cs.map (fun c => c.toNat - 48) := by
  induction cs with
  | nil => rfl
  | cons c cs ih =>
    simp only [leadingDigits, digitValue_digit c (h c (List.mem_cons_self _ _)), List.map_cons]
    rw [ih (fun d hd => h d (List.mem_cons_of_mem _ hd))]

/-- A number below `2 ^ 53` is its own double. -/
theorem roundToDouble_small (n : Nat) (h : n < 2 ^ 53) : roundToDouble n = some n := by
  have he : mantissaShift n n 0 = 0 := by
    cases n with
    | zero => rfl
    | succ k =>
      rw [mantissaShift]
      simp only [pow_zero, Nat.div_one]
      rw [if_pos h]
  simp [roundToDouble, he, Nat.mod_one]
  split <;> omega

/-- On a non-empty text of decimal digits `parseInt` returns the double nearest to the number
it denotes, or `Infinity`. -/
theorem parseInt_digits (text : String) (hne : text.data ≠ [])
    (hd : ∀ c ∈ text.data, '0' ≤ c ∧ c ≤ '9') :
    parseInt text =
      match roundToDouble (decimalValue text) with
      | none => .infinity false
      | some m => .int m := by
  obtain ⟨cs⟩ := text
  cases cs with
  | nil => exact absurd rfl hne
  | cons c cs =>
    have hc := hd c (List.mem_cons_self _ _)
    have hdrop : List.dropWhile isStrWhiteSpace (c :: cs) = c :: cs := by
      simp [List.dropWhile, digit_not_space c hc]
    have hminus := digit_ne c '-' hc (by decide)
    have hplus := digit_ne c '+' hc (by decide)
    have hbase : (match c :: cs with
        | a :: d :: r => if a = '0' ∧ (d = 'x' ∨ d = 'X') then (16, r) else (10, c :: cs)
        | r => (10, r)) = (10, c :: cs) := by
      cases cs with
      | nil => rfl
      | cons d r =>
        have hdd := hd d (by simp)
        have hx := digit_ne d 'x' hdd (by decide)
        have hX := digit_ne d 'X' hdd (by decide)
        simp [hx, hX]
    simp only [parseInt, hdrop, hminus, hplus, if_false, hbase, leadingDigits_digits (c :: cs) hd,
      decimalValue]
    simp

/-- A run of decimal digits denotes a number below the power of ten of its length. -/
theorem digitsValue_lt (ds : List Nat) (hds : ∀ d ∈ ds, d ≤ 9) (acc : Nat) :
    ds.foldl (fun acc d => acc * 10 + d) acc + 1 ≤ (acc + 1) * 10 ^ ds.length := by
  induction ds generalizing acc with
  | nil => simp
  | cons d ds ih =>
    have hd : d ≤ 9 := hds d (List.mem_cons_self _ _)
    have h1 := ih (fun x hx => hds x (List.mem_cons_of_mem _ hx)) (acc * 10 + d)
    have h3 : acc * 10 + d + 1 ≤ (acc + 1) * 10 := by omega
    have h2 : (acc * 10 + d + 1) * 10 ^ ds.length ≤ (acc + 1) * 10 ^ (ds.length + 1) :=
      calc (acc * 10 + d + 1) * 10 ^ ds.length
          ≤ ((acc + 1) * 10) * 10 ^ ds.length := Nat.mul_le_mul_right _ h3
        _ = (acc + 1) * 10 ^ (ds.length + 1) := by rw [pow_succ]; ring
    simpa [List.foldl_cons, List.length_cons] using le_trans h1 h2

/-- A text of at most fifteen decimal digits denotes a number below `2 ^ 53`. -/
theorem decimalValue_small (text : String) (hd : ∀ c ∈ text.data, '0' ≤ c ∧ c ≤ '9')
    (hlen : text.data.length ≤ 15) : decimalValue text < 2 ^ 53 := by
  have h := digitsValue_lt (text.data.map (fun c => c.toNat - 48))
    (by
      intro d hdm
      simp only [List.mem_map] at hdm
      obtain ⟨c, hc, rfl⟩ := hdm
      have := digit_toNat c (hd c hc)
      omega) 0
  simp only [List.length_map, zero_add, one_mul] at h
  have hpow : 10 ^ text.data.length ≤ 10 ^ 15 := Nat.pow_le_pow_right (by decide) hlen
  have h15 : (10 : Nat) ^ 15 < 2 ^ 53 := by decide
  unfold decimalValue digitsValue
  omega

/-- A `GET /channels/:channelId/blocks/:number` request is served by the block handler, and by no
other route. -/
theorem block_dispatch (env : Env) (req : Request) (ch seg : String) (s : St)
    (hm : req.method = .GET) (hseg : segments req.path = ["channels", ch, "blocks", seg])
    (hch : ch ≠ "") (hnum : seg ≠ "") :
    runStack env req appRouter s =
      asyncMiddleware (asyncFn getBlock) env req [("channelId", ch), ("number", seg)] s := by
  rw [runStack_filter]
  have hl : lower "channels" = "channels" := by decide
  have hl2 : lower "blocks" = "blocks" := by decide
  simp [appRouter, routeTable, RouteEntry.layer, List.filter, methodMatches, hm, hseg,
    dropTrailingSlash_eq _ _ _ _ hnum, matchPattern, hl, hl2, hch, hnum]
  rw [runStack_single env req _ [("channelId", ch), ("number", seg)] s
    (by simp [methodMatches, hm, hseg, dropTrailingSlash_eq _ _ _ _ hnum, matchPattern, hl, hl2,
      hch, hnum])]
  simp [RouteEntry.fn]

/-- The wrapped block handler calls `queryBlock` once, with `parseInt` of the segment. -/
theorem blockNumbers_getBlock (env : Env) (req : Request) (ps : Params) (s : St) :
    blockNumbers (asyncMiddleware (asyncFn getBlock) env req ps s).1.trace =
      blockNumbers s.trace ++ [parseInt (param ps "number")] := by
  simp only [asyncMiddleware, asyncFn, getBlock, relay, St.invoke, St.write, St.log]
  cases env.ledger (.queryBlock (param ps "channelId") (parseInt (param ps "number"))) <;>
    cases hs : s.sent <;> simp [blockNumbers, Event.blockNumber?, St.write, St.log, hs]

/-- The final handler calls no LedgerClient operation. -/
theorem blockNumbers_finalhandler (s : St) (n : Next) :
    blockNumbers (finalhandler s n).trace = blockNumbers s.trace := by
  cases n <;> simp only [finalhandler] <;> cases hs : s.sent <;>
    simp [blockNumbers, Event.blockNumber?, St.write, St.log, hs]

/-- C9 (amended): for a `GET /channels/:channelId/blocks/:number` request that reaches the router
(body parsed, bearer token verified, `init` accepted), `queryBlock` is invoked exactly once and
the block number passed is `parseInt` of the text of the `:number` segment, unvalidated. For a
segment made of decimal digits only, that number is a non-negative integer or `Infinity`, and
for such a segment of at most fifteen digits it is the integer the digits denote. -/
theorem block_number_is_parseInt (env : Env) (req : Request) (ch seg : String) (sub v : JSVal)
    (hm : req.method = .GET) (hseg : segments req.path = ["channels", ch, "blocks", seg])
    (hch : ch ≠ "") (hnum : seg ≠ "") (hb : req.bodyMalformed = false)
    (htok : bearerSub env req = some sub) (hinit : env.ledger .init = .ok v) :
    blockNumbers (handle env req).trace = [parseInt seg] ∧
    ((∀ c ∈ seg.data, '0' ≤ c ∧ c ≤ '9') →
      (parseInt seg = .infinity false ∨ ∃ m : Nat, parseInt seg = .int m) ∧
      (seg.data.length ≤ 15 → parseInt seg = .int (decimalValue seg))) := by
  have hl : lower "channels" ≠ "webapp" := by decide
  have hdata : seg.data ≠ [] := by
    intro h; apply hnum; cases seg; simp_all
  refine ⟨?_, fun hd => ⟨?_, fun hlen => ?_⟩⟩
  · rw [handle_eq, blockNumbers_finalhandler]
    cases hlogin : env.ledger (.loginOrRegister sub .undefined) with
    | ok w =>
      rw [runStack_login_ok env req sub v w hb (by simp [hm])
          (staticAnswer_none env req _ _ hseg hl)
          (not_public_of_segments _ (by simp [hseg])) htok hinit hlogin,
        block_dispatch env req ch seg _ hm hseg hch hnum, blockNumbers_getBlock,
        param_second "number" ch seg (by decide)]
      simp [blockNumbers, Event.blockNumber?, St.identified]
    | error e1 =>
      rw [runStack_login_failed env req sub v e1 hb (by simp [hm])
          (staticAnswer_none env req _ _ hseg hl)
          (not_public_of_segments _ (by simp [hseg])) htok hinit hlogin,
        block_dispatch env req ch seg _ hm hseg hch hnum, blockNumbers_getBlock,
        param_second "number" ch seg (by decide)]
      simp [blockNumbers, Event.blockNumber?, St.rejected]
  · rw [parseInt_digits seg hdata hd]
    cases roundToDouble (decimalValue seg) with
    | none => exact Or.inl rfl
    | some m => exact Or.inr ⟨m, rfl⟩
  · rw [parseInt_digits seg hdata hd, roundToDouble_small _ (decimalValue_small seg hd hlen)]

/-- A `POST /users` request is served by the users handler, and by no other route. -/
theorem users_dispatch (env : Env) (req : Request) (s : St)
    (hm : req.method = .POST) (hp : req.path = "/users") :
    runStack env req appRouter s = asyncMiddleware (asyncFn postUsers) env req [] s := by
  have hseg : segments req.path = ["users"] := by rw [hp]; decide
  have hdrop : dropTrailingSlash ["users"] = ["users"] := by decide
  have hl : lower "users" = "users" := by decide
  rw [runStack_filter]
  simp [appRouter, routeTable, RouteEntry.layer, List.filter, methodMatches, hm, hseg,
    hdrop, matchPattern, hl]
  rw [runStack_single env req _ [] s
    (by simp [methodMatches, hm, hseg, hdrop, matchPattern, hl])]
  simp [RouteEntry.fn]

/-- C6 (amended): for a `POST /users` request (body parsed, `init` accepted) whose credentials
the ledger accepts, `loginOrRegister` is called once, with `username` and `password` of the
body, and the subject of the token is the name `fabricStarterClient.user.getName()` returns
right after: the only response is 200 with a token signed with the shared secret, and verifying
it against the secret yields that name (when the name cannot be read, the response is 500). The
handler does not take the subject from the request. -/
theorem users_token_subject (env : Env) (req : Request) (username password v w : JSVal)
    (hm : req.method = .POST) (hp : req.path = "/users") (hb : req.bodyMalformed = false)
    (hinit : env.ledger .init = .ok v)
    (hu : req.body.prop "username" = .ok username)
    (hpw : req.body.prop "password" = .ok password)
    (hlogin : env.ledger (.loginOrRegister username password) = .ok w) :
    logins (handle env req).trace = [(username, password)] ∧
    match env.ledger .getUserName with
    | .ok name =>
      responses (handle env req).trace = [⟨200, .jwt (jsonwebtoken.sign name env.secret)⟩] ∧
      jsonwebtoken.verify (jsonwebtoken.sign name env.secret) env.secret = some name
    | .error e => responses (handle env req).trace = [⟨500, .json (.str e.message)⟩] := by
  have hseg : segments req.path = ["users"] := by rw [hp]; decide
  have hl : lower "users" ≠ "webapp" := by decide
  have hrun := runStack_public env req v hb (by simp [hm])
    (staticAnswer_none env req _ _ hseg hl) (by simp [hp, publicPaths]) hinit
  rw [handle_eq, hrun, users_dispatch env req _ hm hp]
  cases hn : env.ledger .getUserName with
  | ok name =>
    refine ⟨?_, ?_, ?_⟩
    · simp [asyncMiddleware, asyncFn, postUsers, hu, hpw, loginOrRegister, hlogin, getUserName,
        St.invoke, hn, St.log, St.write, St.anonymous, finalhandler, logins, Event.login?]
    · simp [asyncMiddleware, asyncFn, postUsers, hu, hpw, loginOrRegister, hlogin, getUserName,
        St.invoke, hn, St.log, St.write, St.anonymous, finalhandler, responses,
        Event.response?]
    · simp [jsonwebtoken.sign, jsonwebtoken.verify]
  | error e =>
    refine ⟨?_, ?_⟩
    · simp [asyncMiddleware, asyncFn, postUsers, hu, hpw, loginOrRegister, hlogin, getUserName,
        St.invoke, hn, St.log, St.write, St.anonymous, finalhandler, logins, Event.login?]
    · simp [asyncMiddleware, asyncFn, postUsers, hu, hpw, loginOrRegister, hlogin, getUserName,
        St.invoke, hn, St.log, St.write, St.anonymous, finalhandler, responses,
        Event.response?]

/-- Delivering block events appends one `chainblock` broadcast per event, in order. -/
theorem deliver_eq (events : List Block) (emitted : List Emit) :
    deliver events emitted =
      emitted ++ events.map (fun b => { event := "chainblock", block := b }) := by
  induction events generalizing emitted with
  | nil => simp [deliver]
  | cons b bs ih =>
    have h : deliver (b :: bs) emitted = deliver bs (onBlock b emitted) := rfl
    rw [h, ih, onBlock]
    simp

/-- C7: for every sequence of block events delivered to the block callbacks, the broadcasts are
that sequence in arrival order, each event once, under the name `chainblock` and with the
block unchanged; so the blocks forwarded for a channel are the delivered blocks of that
channel, and their numbers are non-decreasing whenever the delivered ones are. -/
theorem chainblock_broadcast (events : List Block) :
    deliver events [] = events.map (fun b => { event := "chainblock", block := b }) ∧
    (∀ channelId : String,
      forwarded channelId (deliver events []) =
        events.filter (fun b => b.channel_id = channelId)) ∧
    (∀ channelId : String,
      ((events.filter (fun b => b.channel_id = channelId)).map Block.number).Pairwise (· ≤ ·) →
      ((forwarded channelId (deliver events [])).map Block.number).Pairwise (· ≤ ·)) := by
  have hf : ∀ channelId : String, forwarded channelId (deliver events []) =
      events.filter (fun b => b.channel_id = channelId) := by
    intro channelId
    rw [deliver_eq]
    simp [forwarded, List.map_map, Function.comp_def]
  refine ⟨by rw [deliver_eq]; simp, hf, fun channelId h => ?_⟩
  rw [hf]
  exact h

/-- The loop over the channel ids makes one registration call per id, in order. -/
theorem subscribe_fold (ids : List JSVal) (log : List BridgeEvent) :
    ids.foldl (fun log channelId => subscribe channelId log) log =
      log ++ ids.map (fun c => BridgeEvent.register c true true) := by
  induction ids generalizing log with
  | nil => simp
  | cons c cs ih => rw [List.foldl_cons, ih]; simp [subscribe]

/-- Settling the registrations makes no further registration call. -/
theorem settle_fold (register : JSVal → Except JSError Unit) (ids : List JSVal)
    (log : List BridgeEvent) :
    (ids.foldl (fun log channelId => settle register channelId log) log).filter
        BridgeEvent.isRegister = log.filter BridgeEvent.isRegister := by
  induction ids generalizing log with
  | nil => simp
  | cons c cs ih =>
    rw [List.foldl_cons, ih]
    unfold settle
    cases register c <;> simp [BridgeEvent.isRegister]

/-- Reading the `channel_id` of every element succeeds when no element is `null` or
`undefined`, and gives one id per element, in order. -/
theorem channelIds_ok (channels : List JSVal) (h : ∀ c ∈ channels, c ≠ .null ∧ c ≠ .undefined) :
    ∃ ids, channelIds channels = .ok ids ∧
      List.Forall₂ (fun c channelId => c.prop "channel_id" = .ok channelId) channels ids := by
  induction channels with
  | nil => exact ⟨[], rfl, List.Forall₂.nil⟩
  | cons c cs ih =>
    obtain ⟨ids, hids, hall⟩ := ih (fun x hx => h x (List.mem_cons_of_mem _ hx))
    obtain ⟨hnull, hundef⟩ := h c (List.mem_cons_self _ _)
    have hc : ∃ channelId, c.prop "channel_id" = .ok channelId := by
      cases c with
      | null => exact absurd rfl hnull
      | undefined => exact absurd rfl hundef
      | bool _ | num _ | str _ | arr _ | obj _ => exact ⟨_, rfl⟩
    obtain ⟨channelId, hid⟩ := hc
    exact ⟨channelId :: ids, by simp [channelIds, hid, hids], List.Forall₂.cons hid hall⟩

/-- When reading a `channel_id` fails, `startSocketServer` makes no registration call at all. -/
theorem no_registration_when_map_fails (register : JSVal → Except JSError Unit)
    (channels : List JSVal) (e : JSError) (h : channelIds channels = .error e) :
    (startSocketServer register channels).filter BridgeEvent.isRegister = [] := by
  simp [startSocketServer, h, BridgeEvent.isRegister]

/-- C10: for every channel list whose elements have a readable `channel_id` (no element is
`null` or `undefined`) and whatever the outcome of each registration, the `registerBlockEvent`
calls of `startSocketServer` are, in order, one call per list element, with the `channel_id`
of that element and with both the block callback and the error callback. -/
theorem one_registration_per_channel (register : JSVal → Except JSError Unit)
    (channels : List JSVal) (h : ∀ c ∈ channels, c ≠ .null ∧ c ≠ .undefined) :
    ∃ ids, List.Forall₂ (fun c channelId => c.prop "channel_id" = .ok channelId) channels ids ∧
      (startSocketServer register channels).filter BridgeEvent.isRegister =
        ids.map (fun channelId => BridgeEvent.register channelId true true) := by
  obtain ⟨ids, hids, hall⟩ := channelIds_ok channels h
  refine ⟨ids, hall, ?_⟩
  simp only [startSocketServer, hids]
  rw [settle_fold, subscribe_fold]
  simp [List.filter_map, Function.comp_def, BridgeEvent.isRegister]
/-! ## One response per request -/

/-- Logging an event that is no response keeps the state consistent. -/
theorem consistent_log (s : St) (e : Event) (he : e.response? = none) (h : s.Consistent) :
    (s.log e).Consistent := by
  unfold St.Consistent at *
  simp [St.log, responses, he] at *
  exact h

/-- Writing a response keeps the state consistent. -/
theorem consistent_write (s : St) (r : Response) (h : s.Consistent) :
    (s.write r).1.Consistent := by
  unfold St.Consistent at *
  unfold St.write
  cases hs : s.sent with
  | none => simp [hs, St.log, responses, Event.response?] at *; exact h
  | some r0 => simp [hs, St.log, responses, Event.response?] at *; exact h

/-- Relaying a LedgerClient result keeps the state consistent. -/
theorem consistent_relay (env : Env) (c : Call) (s : St) (h : s.Consistent) :
    (relay env c s).1.Consistent := by
  unfold relay St.invoke
  cases env.ledger c with
  | error e => exact consistent_log s _ rfl h
  | ok v => exact consistent_write _ _ (consistent_log s _ rfl h)

/-- Logging in keeps the state consistent. -/
theorem consistent_loginOrRegister (env : Env) (login password : JSVal) (s : St)
    (h : s.Consistent) : (loginOrRegister env login password s).1.Consistent := by
  have h1 := consistent_log s (.call (.loginOrRegister login password)) rfl h
  simp only [loginOrRegister, St.invoke]
  cases env.ledger (.loginOrRegister login password) with
  | error e => exact h1
  | ok v => exact h1

/-- Every handler script keeps the state consistent. -/
theorem consistent_script (r : RouteEntry) (hr : r ∈ routeTable) (env : Env) (req : Request)
    (ps : Params) (s : St) (h : s.Consistent) : (r.script env req ps s).1.Consistent := by
  simp only [routeTable, List.mem_cons, List.mem_singleton, List.not_mem_nil, or_false] at hr
  rcases hr with rfl | rfl | rfl | rfl | rfl | rfl | rfl | rfl | rfl | rfl | rfl | rfl | rfl |
    rfl | rfl | rfl | rfl | rfl | rfl
  · exact consistent_write _ _ (consistent_log s _ rfl h)
  · exact consistent_relay _ _ _ (consistent_log s _ rfl h)
  · exact consistent_relay _ _ _ (consistent_log s _ rfl h)
  · exact consistent_relay _ _ _ (consistent_log s _ rfl h)
  · exact consistent_write _ _ (consistent_log s _ rfl h)
  · show (postUsers env req ps s).1.Consistent
    have h0 := consistent_log s (.handler "POST /users") rfl h
    simp only [postUsers]
    cases req.body.prop "username" with
    | error e => exact h0
    | ok username =>
      cases req.body.prop "password" with
      | error e => exact h0
      | ok password =>
        have h1 := consistent_loginOrRegister env username password _ h0
        simp only
        rcases hlr : loginOrRegister env username password (s.log (.handler "POST /users"))
          with ⟨s1, _ | e⟩
        · rw [hlr] at h1
          have h2 := consistent_log s1 (.call .getUserName) rfl h1
          simp only [getUserName, St.invoke]
          cases env.ledger .getUserName with
          | error e => exact h2
          | ok name => exact consistent_write _ _ (consistent_log _ _ rfl h2)
        · rw [hlr] at h1; exact h1
  · exact consistent_relay _ _ _ (consistent_log s _ rfl h)
  · exact consistent_write _ _ (consistent_log s _ rfl h)
  · exact consistent_relay _ _ _ (consistent_log s _ rfl h)
  · exact consistent_relay _ _ _ (consistent_log s _ rfl h)
  · exact consistent_relay _ _ _ (consistent_log s _ rfl h)
  · exact consistent_relay _ _ _ (consistent_log s _ rfl h)
  · exact consistent_write _ _ (consistent_log s _ rfl h)
  · exact consistent_relay _ _ _ (consistent_log s _ rfl h)
  · exact consistent_relay _ _ _ (consistent_log s _ rfl h)
  · exact consistent_relay _ _ _ (consistent_log s _ rfl h)
  · exact consistent_write _ _ (consistent_log s _ rfl h)
  · show (getChaincodeQuery env req ps s).1.Consistent
    have h0 := consistent_log s (.handler "GET /channels/:channelId/chaincodes/:chaincodeId")
      rfl h
    simp only [getChaincodeQuery, St.invoke]
    cases env.jsonParse (req.args.getD "undefined") with
    | error e => exact h0
    | ok args =>
      have h1 := consistent_log _ (.call (.query (param ps "channelId") (param ps "chaincodeId")
        (JSVal.ofParam req.fcn) args (JSVal.ofParam req.targets))) rfl h0
      simp only
      cases env.ledger (.query (param ps "channelId") (param ps "chaincodeId")
        (JSVal.ofParam req.fcn) args (JSVal.ofParam req.targets)) with
      | error e => exact h1
      | ok ret =>
        simp only
        cases ret.first with
        | error e => exact h1
        | ok r0 =>
          simp only
          cases r0.startsWith "Error" with
          | error e => exact h1
          | ok b =>
            cases b with
            | true => cases r0 <;> exact h1
            | false => exact consistent_write _ _ h1
  · show (postChaincodeInvoke env req ps s).1.Consistent
    have h0 := consistent_log s (.handler "POST /channels/:channelId/chaincodes/:chaincodeId")
      rfl h
    simp only [postChaincodeInvoke]
    cases req.body.prop "fcn" with
    | error e => exact h0
    | ok fcn =>
      cases req.body.prop "args" with
      | error e => exact h0
      | ok args =>
        cases req.body.prop "targets" with
        | error e => exact h0
        | ok targets => exact consistent_relay _ _ _ h0

/-- Every registered route function keeps the state consistent. -/
theorem consistent_fn (r : RouteEntry) (hr : r ∈ routeTable) (env : Env) (req : Request)
    (ps : Params) (s : St) (h : s.Consistent) : (r.fn env req ps s).1.Consistent := by
  have hscript := consistent_script r hr env req ps s h
  unfold RouteEntry.fn
  rcases hrun : r.script env req ps s with ⟨s1, _ | e⟩
  · rw [hrun] at hscript
    cases r.wrapped <;> simp [asyncMiddleware, asyncFn, unwrapped, syncFn, hrun] <;>
      exact hscript
  · rw [hrun] at hscript
    cases r.wrapped
    · simp [unwrapped, syncFn, hrun]; exact hscript
    · simp only [asyncMiddleware, asyncFn, hrun, if_true]
      have h1 := consistent_log s1 (.logError "asyncMiddleware" e) rfl hscript
      have h2 := consistent_write _ ⟨500, .json (.str e.message)⟩ h1
      rcases hw : (s1.log (.logError "asyncMiddleware" e)).write ⟨500, .json (.str e.message)⟩
        with ⟨s2, _ | e2⟩
      · rw [hw] at h2; exact h2
      · rw [hw] at h2; exact consistent_log _ _ rfl h2

/-- Every layer of the stack keeps the state consistent. -/
theorem consistent_layer (l : Layer) (hl : l ∈ app) (env : Env) (req : Request)
    (ps : Params) (s : St) (h : s.Consistent) : (l.run env req ps s).1.Consistent := by
  rw [app_eq] at hl
  simp only [List.mem_cons] at hl
  have hcors : (cors env req ps s).1.Consistent := by
    unfold cors
    split
    · have h2 := consistent_write s ⟨204, .empty⟩ h
      rcases hw : s.write ⟨204, .empty⟩ with ⟨s2, _ | e2⟩ <;> rw [hw] at h2 <;> exact h2
    · exact h
  rcases hl with rfl | rfl | rfl | rfl | rfl | rfl | hl
  · show (bodyParser env req ps s).1.Consistent
    unfold bodyParser; split <;> exact h
  · exact hcors
  · exact hcors
  · show (serveStatic env req ps s).1.Consistent
    unfold serveStatic
    split
    · cases env.staticAsset (segments req.path).tail with
      | none => exact h
      | some r =>
        have h2 := consistent_write s r h
        simp only
        rcases hw : s.write r with ⟨s2, _ | e2⟩ <;> rw [hw] at h2 <;> exact h2
    · exact h
  · show (jwtGate env req ps s).1.Consistent
    unfold jwtGate
    split
    · exact h
    · cases bearerSub env req <;> exact h
  · show (identity env req ps s).1.Consistent
    simp only [identity, St.invoke]
    have h0 := consistent_log s (.call .init) rfl h
    cases env.ledger .init with
    | error e => exact consistent_log _ _ rfl h0
    | ok v =>
      simp only
      cases hp : (s.log (.call .init)).principal with
      | none => exact h0
      | some login =>
        simp only
        have h1 := consistent_loginOrRegister env login .undefined _ h0
        rcases hlr : loginOrRegister env login .undefined (s.log (.call .init))
          with ⟨s2, _ | e⟩
        · rw [hlr] at h1; exact h1
        · rw [hlr] at h1
          have h2 := consistent_write _ ⟨500, .json (.str e.message)⟩
            (consistent_log s2 (.logError "loginOrRegister" e) rfl h1)
          simp only
          rcases hw : (s2.log (.logError "loginOrRegister" e)).write
            ⟨500, .json (.str e.message)⟩ with ⟨s3, _ | e2⟩
          · rw [hw] at h2; exact h2
          · rw [hw] at h2; exact consistent_log _ _ rfl h2
  · simp only [appRouter, List.mem_map] at hl
    obtain ⟨r, hr, rfl⟩ := hl
    exact consistent_fn r hr env req ps s h

/-- The walk over the stack keeps the state consistent. -/
theorem consistent_runStack (env : Env) (req : Request) (ls : List Layer)
    (hls : ∀ l ∈ ls, l ∈ app) (s : St) (h : s.Consistent) :
    (runStack env req ls s).1.Consistent := by
  induction ls generalizing s with
  | nil => exact h
  | cons l ls ih =>
    rw [runStack]
    cases l.applies req with
    | none => exact ih (fun l hl => hls l (List.mem_cons_of_mem _ hl)) s h
    | some ps =>
      have h1 := consistent_layer l (hls l (List.mem_cons_self _ _)) env req ps s h
      simp only
      rcases hrun : l.run env req ps s with ⟨s1, _ | e | _⟩
      · rw [hrun] at h1
        exact ih (fun l hl => hls l (List.mem_cons_of_mem _ hl)) s1 h1
      · rw [hrun] at h1; exact h1
      · rw [hrun] at h1; exact h1

/-- The final handler keeps the state consistent. -/
theorem consistent_finalhandler (s : St) (n : Next) (h : s.Consistent) :
    (finalhandler s n).Consistent := by
  cases n with
  | stop => exact h
  | next =>
    simp only [finalhandler]
    cases hs : s.sent with
    | none => exact consistent_write s _ h
    | some r => exact h
  | nextErr e =>
    simp only [finalhandler]
    cases hs : s.sent with
    | none => exact consistent_write s _ h
    | some r => exact consistent_log s _ rfl h

/-- On the wire, at most one response goes to the client, whatever the request: a write on a
response already sent is refused by the response object. -/
theorem at_most_one_response_sent (env : Env) (req : Request) :
    (responses (handle env req).trace).length ≤ 1 := by
  have h : (handle env req).Consistent := by
    rw [handle_eq]
    exact consistent_finalhandler _ _
      (consistent_runStack env req app (fun _ hl => hl) _ (by simp [St.Consistent, St.initial, responses]))
  rw [h]
  cases (handle env req).sent <;> simp

/-- Every request either ends before the router (answered by a layer before the gate, refused
by the gate, or left unanswered because `init` failed), or reaches the router in one of three
states: anonymous on a public path, identified, or with the identity rejected and the 500
response already sent. The last case is the only one in which a route handler meets a
response already sent. -/
theorem router_entry (env : Env) (req : Request) :
    (∃ s n, runStack env req app St.initial = (s, n) ∧ n ≠ .next ∧
      s.trace.all (fun e => !e.isHandler) = true) ∨
    runStack env req app St.initial = runStack env req appRouter St.anonymous ∨
    (∃ sub, runStack env req app St.initial =
      runStack env req appRouter (St.identified sub)) ∨
    (∃ sub e, env.ledger (.loginOrRegister sub .undefined) = .error e ∧
      runStack env req app St.initial =
        runStack env req appRouter (St.rejected sub e)) := by
  cases hb : req.bodyMalformed with
  | true =>
    exact Or.inl ⟨_, _, runStack_malformed env req hb, by simp, by simp [St.initial]⟩
  | false =>
    by_cases hm : req.method = .OPTIONS
    · exact Or.inl ⟨_, _, runStack_preflight env req hb hm, by simp, by simp [Event.isHandler]⟩
    · cases hs : staticAnswer env req with
      | some r =>
        exact Or.inl ⟨_, _, runStack_static env req r hb hm hs, by simp,
          by simp [Event.isHandler]⟩
      | none =>
        cases hinit : env.ledger .init with
        | error e0 =>
          left
          rw [runStack_gate env req hb hm hs]
          by_cases hpath : req.path ∈ publicPaths
          · rw [runStack_next _ _ _ _ _ St.initial [] rfl
              (by simp [useLayer, jwtGate, hpath])]
            exact ⟨(St.initial.log (.call .init)).log (.unhandledRejection e0), .stop,
              runStack_stop _ _ _ _ _ _ [] rfl
                (by simp [useLayer, identity, St.invoke, hinit]), by simp,
              by simp [St.log, St.initial, Event.isHandler]⟩
          · cases htok : bearerSub env req with
            | none =>
              exact ⟨St.initial, .nextErr unauthorized,
                runStack_nextErr _ _ _ _ _ _ [] _ rfl
                  (by simp [useLayer, jwtGate, hpath, htok]), by simp, by simp [St.initial]⟩
            | some sub =>
              rw [runStack_next _ _ _ _ _ { St.initial with principal := some sub } [] rfl
                (by simp [useLayer, jwtGate, hpath, htok])]
              exact ⟨(({ St.initial with principal := some sub } : St).log
                  (.call .init)).log (.unhandledRejection e0), .stop,
                runStack_stop _ _ _ _ _ _ [] rfl
                  (by simp [useLayer, identity, St.invoke, hinit]), by simp,
                by simp [St.log, St.initial, Event.isHandler]⟩
        | ok v =>
          by_cases hpath : req.path ∈ publicPaths
          · exact Or.inr (Or.inl (runStack_public env req v hb hm hs hpath hinit))
          · cases htok : bearerSub env req with
            | none =>
              exact Or.inl ⟨_, _, runStack_unauthorized env req hb hm hs hpath htok, by simp,
                by simp [St.initial]⟩
            | some sub =>
              cases hlogin : env.ledger (.loginOrRegister sub .undefined) with
              | ok w =>
                exact Or.inr (Or.inr (Or.inl
                  ⟨sub, runStack_login_ok env req sub v w hb hm hs hpath htok hinit hlogin⟩))
              | error e =>
                exact Or.inr (Or.inr (Or.inr ⟨sub, e, hlogin,
                  runStack_login_failed env req sub v e hb hm hs hpath htok hinit hlogin⟩))

/-! ## The claims at sample inputs -/

/-- Witness of C1 (amended): a request for `/channels` without a token is answered 401. -/
theorem unauthenticated_request_is_stopped_witness :
    (handle sampleEnv anonymousChannels).trace.all (fun e => !e.isCall && !e.isHandler) = true ∧
    responses (handle sampleEnv anonymousChannels).trace = [⟨401, .errorPage⟩] :=
  ⟨(unauthenticated_request_is_stopped sampleEnv anonymousChannels (by decide) rfl).1,
   (unauthenticated_request_is_stopped sampleEnv anonymousChannels (by decide) rfl).2
    (by unfold answeredBeforeGate; decide)⟩

/-- C1 as stated fails: `/webapp/index.html` and `/channels` are none of the public paths and
the requests carry no token, yet the first is answered 200 with the asset by the static layer
and the second, a preflight, 204 by the `cors` layer; neither is answered 401. -/
theorem unauthenticated_request_not_always_401 :
    (assetRequest.path ∉ publicPaths ∧ bearerSub sampleEnv assetRequest = none ∧
      responses (handle sampleEnv assetRequest).trace = [⟨200, .file "<html></html>"⟩] ∧
      (responses (handle sampleEnv assetRequest).trace).map (fun r => r.status) ≠ [401]) ∧
    (preflightRequest.path ∉ publicPaths ∧ bearerSub sampleEnv preflightRequest = none ∧
      responses (handle sampleEnv preflightRequest).trace = [⟨204, .empty⟩] ∧
      (responses (handle sampleEnv preflightRequest).trace).map (fun r => r.status) ≠ [401]) :=
  ⟨⟨by decide, rfl, rfl, by decide⟩, ⟨by decide, rfl, rfl, by decide⟩⟩

/-- The sample ledger answers the query of `alice`, whose identity it accepts, with
`Error: timeout`, and the response is 500 with that text. -/
theorem query_endorser_error_yields_500_witness :
    responses (handle sampleEnv aliceQuery).trace = [⟨500, .json (.str "Error: timeout")⟩] :=
  (query_endorser_error_yields_500 sampleEnv aliceQuery "ch1" "cc1" "Error: timeout"
    (.str "alice") .undefined .undefined (.arr []) (.arr [.str "Error: timeout"])
    rfl (by decide) (by decide) (by decide) rfl rfl rfl rfl rfl rfl rfl (by decide)).1

/-- Witness of C3: the `args` text `[` does not parse; the response is 500 and `query` is not
invoked. -/
theorem query_malformed_args_yields_500_witness :
    (responses (handle sampleEnv aliceBadArgs).trace).map (fun r => r.status) = [500] ∧
    (handle sampleEnv aliceBadArgs).trace.all (fun ev => !ev.isQueryCall) = true :=
  query_malformed_args_yields_500 sampleEnv aliceBadArgs "ch1" "cc1" (.str "alice") .undefined
    (JSError.ofMessage "Unexpected token") rfl (by decide) (by decide) (by decide) rfl rfl rfl rfl

/-- C2 at a failing input: `mallory` presents a valid token and the ledger rejects the identity
(`enroll failed`). The identity middleware answers 500 and still calls `next()`: the chaincode
query handler runs, `query` is invoked and its result begins with the text `Error: timeout`;
the handler raises that text, the wrapper catches it, and its write of 500 `Error: timeout` is
refused because a response was already sent. The query result has a first element that begins
with `Error`, yet the body of the response is `enroll failed`, not that element. -/
theorem identity_failure_hides_query_error :
    sampleEnv.ledger (.query "ch1" "cc1" (.str "read") (.arr []) .undefined) =
      .ok (.arr [.str "Error: timeout"]) ∧
    responses (handle sampleEnv malloryQuery).trace = [⟨500, .json (.str "enroll failed")⟩] ∧
    (handle sampleEnv malloryQuery).trace =
      [.call .init, .call (.loginOrRegister (.str "mallory") .undefined),
       .logError "loginOrRegister" (JSError.ofMessage "enroll failed"),
       .respond ⟨500, .json (.str "enroll failed")⟩,
       .handler "GET /channels/:channelId/chaincodes/:chaincodeId",
       .call (.query "ch1" "cc1" (.str "read") (.arr []) .undefined),
       .logError "asyncMiddleware" (JSError.ofMessage "Error: timeout"),
       .writeRejected ⟨500, .json (.str "Error: timeout")⟩,
       .unhandledRejection JSError.headersSent] :=
  ⟨rfl, rfl, rfl⟩

/-- C4 at a failing input: `mallory` presents a valid token, the ledger rejects the identity
(`enroll failed`) and then fails to list the channels (`peer down`). The identity middleware
answers 500 and still calls `next()`: the handler of `GET /channels` runs and invokes
`queryChannels`; it fails, the wrapper catches the failure, and its write of 500 `peer down`
is refused because a response was already sent. The response of the request is the 500 of the
identity middleware, not the 500 of the wrapper. -/
theorem identity_failure_falls_through :
    (handle sampleEnv malloryChannels).trace =
      [.call .init, .call (.loginOrRegister (.str "mallory") .undefined),
       .logError "loginOrRegister" (JSError.ofMessage "enroll failed"),
       .respond ⟨500, .json (.str "enroll failed")⟩,
       .handler "GET /channels", .call .queryChannels,
       .logError "asyncMiddleware" (JSError.ofMessage "peer down"),
       .writeRejected ⟨500, .json (.str "peer down")⟩,
       .unhandledRejection JSError.headersSent] := rfl

/-- Witness of C5: the handler of `GET /chaincodes` runs to its end on the sample ledger; the
one response is the result of `queryInstalledChaincodes` as JSON. -/
theorem asyncMiddleware_contract_witness :
    chaincodesRoute.fn sampleEnv aliceChaincodes [] (St.identified (.str "alice")) =
        ({ St.identified (.str "alice") with
            sent := some ⟨200, .json .undefined⟩
            trace := (St.identified (.str "alice")).trace ++
              [.handler "GET /chaincodes", .call .queryInstalledChaincodes,
               .respond ⟨200, .json .undefined⟩] }, .stop) ∧
    routeAnswer sampleEnv aliceChaincodes [] "GET /chaincodes" =
      some { calls := [.queryInstalledChaincodes], response := ⟨200, .json .undefined⟩ } :=
  ⟨(asyncMiddleware_contract chaincodesRoute (by simp [routeTable, chaincodesRoute]) rfl
      sampleEnv aliceChaincodes [] (St.identified (.str "alice"))
      { St.identified (.str "alice") with
          sent := some ⟨200, .json .undefined⟩
          trace := (St.identified (.str "alice")).trace ++
            [.handler "GET /chaincodes", .call .queryInstalledChaincodes,
             .respond ⟨200, .json .undefined⟩] }
      none rfl rfl).1, rfl⟩

/-- Witness of C6 (amended): registering `alice` on the sample ledger, whose client then
reports `alice`, returns a token whose subject is `alice`. -/
theorem users_token_subject_witness :
    logins (handle sampleEnv aliceRegisters).trace = [(.str "alice", .str "pw")] ∧
    responses (handle sampleEnv aliceRegisters).trace =
      [⟨200, .jwt (jsonwebtoken.sign (.str "alice") "s3cret")⟩] ∧
    jsonwebtoken.verify (jsonwebtoken.sign (.str "alice") "s3cret") "s3cret" =
      some (.str "alice") :=
  users_token_subject sampleEnv aliceRegisters (.str "alice") (.str "pw") .undefined .undefined
    rfl rfl rfl rfl rfl rfl rfl

/-- C6 as stated fails: on a LedgerClient that accepts the credentials of `alice` and reports
`bob` as the name of its user, `loginOrRegister` is called with `alice` and the token returned
has the subject `bob`. -/
theorem users_token_subject_is_client_user :
    otherUserEnv.ledger (.loginOrRegister (.str "alice") (.str "pw")) = .ok .undefined ∧
    logins (handle otherUserEnv aliceRegisters).trace = [(.str "alice", .str "pw")] ∧
    responses (handle otherUserEnv aliceRegisters).trace =
      [⟨200, .jwt (jsonwebtoken.sign (.str "bob") "s3cret")⟩] ∧
    jsonwebtoken.verify (jsonwebtoken.sign (.str "bob") "s3cret") "s3cret" ≠
      some (.str "alice") :=
  ⟨rfl, rfl, rfl, by simp [jsonwebtoken.sign, jsonwebtoken.verify]⟩

/-- Witness of C7: the blocks 5 and 6 of `ch1`, delivered around a block of `ch2`, are
forwarded in that order. -/
theorem chainblock_broadcast_witness :
    ((forwarded "ch1" (deliver sampleBlocks [])).map Block.number).Pairwise (· ≤ ·) :=
  (chainblock_broadcast sampleBlocks).2.2 "ch1" (by decide)

/-- Witness of C8: the route `POST /chaincodes`. -/
theorem not_implemented_routes_witness :
    installRoute.method = .POST ∧
    ∃ payload : JSVal, ∀ (env : Env) (req : Request) (ps : Params) (s : St), s.sent = none →
      installRoute.fn env req ps s =
        ({ s with
            sent := some ⟨501, .json payload⟩
            trace := s.trace ++ [.handler installRoute.name, .respond ⟨501, .json payload⟩] },
          .stop) :=
  not_implemented_routes installRoute (by simp [routeTable, installRoute]) (by decide)

/-- Witness of C9 (amended): for the segment `42` the block number passed is 42. -/
theorem block_number_is_parseInt_witness :
    blockNumbers (handle sampleEnv (aliceBlock "42")).trace = [parseInt "42"] ∧
    parseInt "42" = .int 42 :=
  ⟨(block_number_is_parseInt sampleEnv (aliceBlock "42") "ch1" "42" (.str "alice") .undefined
      rfl (by decide) (by decide) (by decide) rfl rfl rfl).1,
   ((block_number_is_parseInt sampleEnv (aliceBlock "42") "ch1" "42" (.str "alice") .undefined
      rfl (by decide) (by decide) (by decide) rfl rfl rfl).2 (by decide)).2 (by decide)⟩

/-- Above `2 ^ 53` the number passed is the nearest double, not the integer the digits denote. -/
theorem parseInt_rounds_to_double :
    parseInt "9007199254740993" = .int 9007199254740992 := by
  decide

/-- A run of four hundred nines is beyond the range of doubles: the number passed is `Infinity`. -/
theorem parseInt_overflows :
    parseInt (String.mk (List.replicate 400 '9')) = .infinity false := by
  set_option maxRecDepth 100000 in
  set_option exponentiation.threshold 2000 in
  decide

/-- A zero after a minus sign is the negative zero. -/
theorem parseInt_negative_zero : parseInt "-0" = .negZero := by
  decide

/-- C9 as stated fails: for the segment `-5` the block number passed to `queryBlock` is the
negative integer -5, and for the segment `latest` it is `NaN`, which is no integer. -/
theorem block_number_negative_or_nan :
    blockNumbers (handle sampleEnv (aliceBlock "-5")).trace = [.int (-5)] ∧
    blockNumbers (handle sampleEnv (aliceBlock "latest")).trace = [.nan] := by
  decide


/-- Witness of C10: two channels, the registration of the first failing; both registration
calls are made. -/
theorem one_registration_per_channel_witness :
    (startSocketServer sampleRegister sampleChannels).filter BridgeEvent.isRegister =
      [.register (.str "ch1") true true, .register (.str "ch2") true true] := by
  obtain ⟨ids, hall, hreg⟩ := one_registration_per_channel sampleRegister sampleChannels
    (by
      intro c hc
      simp only [sampleChannels, List.mem_cons, List.mem_singleton, List.not_mem_nil,
        or_false] at hc
      rcases hc with rfl | rfl <;> exact ⟨nofun, nofun⟩)
  rw [hreg]
  simp only [sampleChannels] at hall
  cases hall with
  | cons h1 hrest =>
    cases hrest with
    | cons h2 hnil =>
      cases hnil
      cases h1
      cases h2
      rfl

end FabricRest
